import Mathlib

/-!
Verification development for the recommendation core of an e-commerce
system (`ml-services`).  The Python sources are shallowly embedded:

* dictionaries become association lists kept in insertion order,
* Python `float` values become `ℚ` where the source only does field
  arithmetic and comparisons, and `ℝ` where the source computes
  `0.5 ** (d / h)` (the exponential time decay) or square roots,
* `None` becomes `Option.none`; a Python value used for truthiness is
  modelled by `Option`, by `≠ []` for lists/dicts, or by `≠ 0` for the
  numeric ids the source guards with `if product_id:` (the id `0` and the
  category id `0` encode Python falsy ids),
* timestamps are modelled as rational "days since epoch"; the current
  wall-clock reading of `datetime.now` is passed explicitly as `now`.

Defensive `if x is None: continue` guards over list elements are dropped:
embedded lists contain no `None` entries.
-/

set_option maxHeartbeats 1600000

namespace ECommerce

/-! ## Data model (src/ml-services/models + dict shapes used by the services) -/

/-- A `filter_context` metadata entry of an interaction event
(`{min_price?, max_price?, category_id?}`); `category_id = 0` is never
stored (the source guards `if category_id:`), absent keys are `none`. -/
structure FilterContext where
  minPrice : Option ℚ
  maxPrice : Option ℚ
  categoryId : Option ℕ
  deriving DecidableEq, Repr

/-- An interaction event as consumed by `FilterAnalyzer`: only the
`metadata.filter_context` field is read; `none` covers both a missing
`metadata` and a missing/empty `filter_context`. -/
structure Interaction where
  filterContext : Option FilterContext
  deriving DecidableEq, Repr

/-- A user review record (`product_id`, `rating`); a missing product id is
encoded by `0`. -/
structure Review where
  productId : ℕ
  rating : ℚ
  deriving DecidableEq, Repr

/-- A product dictionary as read by the recommendation engine.  The source
reads `id` with `product_id` as fallback; both collapse to `id` here.
`categoryId = 0` encodes a missing `category_id`.  `score` carries the
similarity score present on `content_similar` entries. -/
structure Product where
  id : ℕ
  categoryId : ℕ
  name : Option String
  categoryName : Option String
  price : Option ℚ
  isNew : Bool
  isOnSale : Option Bool
  discount : ℚ
  rating : Option ℚ
  popularity : Option ℚ
  imageUrl : Option String
  score : Option ℝ

/-- A timestamped purchase record (`category_id`, `product_price`/`price`,
`purchase_date`/`ordered_at` in days). -/
structure PurchaseRecord where
  productId : ℕ
  categoryId : ℕ
  price : Option ℚ
  timestamp : Option ℚ

/-- A timestamped wishlist record (`product_id`, `category_id`, `added_at`). -/
structure WishRecord where
  productId : ℕ
  categoryId : ℕ
  timestamp : Option ℚ

/-- A timestamped view record (`product_id`, `category_id`,
`created_at`/`timestamp`). -/
structure ViewRecord where
  productId : ℕ
  categoryId : ℕ
  timestamp : Option ℚ

/-- The 8 personality archetypes (`models/schemas.py`, `PersonalityType`). -/
inductive PersonalityType where
  | adventurousPremium
  | cautiousValueSeeker
  | loyalEnthusiast
  | bargainHunter
  | qualityFocused
  | trendFollower
  | practicalShopper
  | impulseBuyer
  deriving DecidableEq, Repr

/-- The 5 personality dimensions as one record of scores (a total version
of the Python dimension dict; `dict.get(name, 0.5)` defaults are
represented by filling `0.5` into the record). -/
structure Dimensions where
  priceSensitivity : ℚ
  explorationTendency : ℚ
  sentimentTendency : ℚ
  purchaseFrequency : ℚ
  decisionSpeed : ℚ
  deriving DecidableEq, Repr

/-- Aggregated purchase statistics used by
`PersonalityClassifier._calculate_purchase_frequency`; the two purchase
timestamps are whole days since epoch (Python subtracts `datetime`s and
takes `.days`). -/
structure PurchaseStats where
  firstPurchase : Option ℤ
  lastPurchase : Option ℤ
  totalOrders : ℕ
  deriving DecidableEq, Repr

/-! ## Configuration constants (src/ml-services/config.py) -/

noncomputable def recommendationAlphaDefault : ℝ := 4/10
noncomputable def alphaSparseCollabThreshold : ℝ := 5/100
noncomputable def alphaSparseCollabBoost : ℝ := 2/10
def alphaNewUserThreshold : ℕ := 10
noncomputable def alphaNewUserBoost : ℝ := 15/100
noncomputable def decayHalfLifePurchases : ℝ := 30
noncomputable def decayHalfLifeViews : ℝ := 7
noncomputable def decayHalfLifeWishlist : ℝ := 14
def diversityMaxPerCategory : ℕ := 3
def diversityMinCategories : ℕ := 3
noncomputable def sessionBoostWeight : ℝ := 3/10
def categoryAffinityTopN : ℕ := 5
noncomputable def categoryAffinityBoost : ℝ := 4/10
noncomputable def categoryAffinityTopBoost : ℝ := 3/10
def pricePreferenceBoost : ℚ := 15/100
def pricePreferencePenalty : ℚ := 1/10
def filterSignalWeight : ℚ := 3/10
def filterMinSamples : ℕ := 3
def filterCategoryMaxWeight : ℕ := 5
noncomputable def filterCategoryAffinityWeight : ℝ := 15/10

/-! ## Filter Analyzer (src/ml-services/services/filter_analyzer.py) -/

/-- `FilterAnalyzer.extract_filter_interactions`: the events whose metadata
carries a (truthy) `filter_context`, reduced to those contexts. -/
def extractFilterInteractions (interactions : List Interaction) : List FilterContext :=
  interactions.filterMap (·.filterContext)

/-- `FilterAnalyzer.extract_price_signals`: average explicit min/max price
over filter events, `(none, none)` below `filter_min_samples` events. -/
def extractPriceSignals (interactions : List Interaction) :
    Option ℚ × Option ℚ :=
  let filterData := extractFilterInteractions interactions
  if filterData.length < filterMinSamples then (none, none)
  else
    let minPrices := filterData.filterMap (·.minPrice)
    let maxPrices := filterData.filterMap (·.maxPrice)
    let avgMin := if minPrices = [] then none else some (minPrices.sum / minPrices.length)
    let avgMax := if maxPrices = [] then none else some (maxPrices.sum / maxPrices.length)
    (avgMin, avgMax)

/-- Increment the count of a key in an insertion-ordered association list
(the behaviour of `defaultdict(int)` under `+= 1`). -/
def bumpCount (counts : List (ℕ × ℕ)) (key : ℕ) : List (ℕ × ℕ) :=
  if key ∈ counts.map Prod.fst then
    counts.map (fun e => if e.1 = key then (e.1, e.2 + 1) else e)
  else counts ++ [(key, 1)]

/-- `FilterAnalyzer.extract_category_signals`: per-category filter usage
counts (a category id must be truthy, i.e. present and nonzero). -/
def extractCategorySignals (interactions : List Interaction) : List (ℕ × ℕ) :=
  (extractFilterInteractions interactions).foldl
    (fun counts ctx =>
      match ctx.categoryId with
      | some c => if c ≠ 0 then bumpCount counts c else counts
      | none => counts)
    []

/-- `FilterAnalyzer.calculate_price_sensitivity_signal`: the averaged
per-event sensitivity, `none` below `filter_min_samples` filter events or
when no event sets a price bound. -/
def calculatePriceSensitivitySignal (interactions : List Interaction) : Option ℚ :=
  let filterData := extractFilterInteractions interactions
  if filterData.length < filterMinSamples then none
  else
    let signals := filterData.filterMap (fun ctx =>
      match ctx.minPrice, ctx.maxPrice with
      | some mn, some mx => some (1 - min ((mx - mn) / 500) 1)
      | none, some mx => some (min (8/10) ((1 - min (mx / 500) 1) + 2/10))
      | some _, none => some (3/10)
      | none, none => none)
    if signals = [] then none else some (signals.sum / signals.length)

/-- `FilterAnalyzer.calculate_filter_based_category_affinity` (with the
default `max_weight` from settings): capped usage counts normalised by the
capped maximum count. -/
def calculateFilterBasedCategoryAffinity (interactions : List Interaction) :
    List (ℕ × ℚ) :=
  let maxWeight := filterCategoryMaxWeight
  let categoryCounts := extractCategorySignals interactions
  if categoryCounts = [] then []
  else
    let maxCount := (categoryCounts.map Prod.snd).foldl max 0
    let cappedMax := min maxCount maxWeight
    categoryCounts.map (fun e =>
      (e.1, ((min e.2 maxWeight : ℕ) : ℚ) / (max cappedMax 1 : ℕ)))

/-- `FilterAnalyzer.blend_price_ranges` (with the default
`filter_weight`): per-bound weighted blend, a missing filter bound keeps
the purchase-derived bound. -/
def blendPriceRanges (purchaseMin purchaseMax : ℚ)
    (filterMin filterMax : Option ℚ) : ℚ × ℚ :=
  let filterWeight := filterSignalWeight
  let purchaseWeight := 1 - filterWeight
  if filterMin = none ∧ filterMax = none then (purchaseMin, purchaseMax)
  else
    let blendedMin := match filterMin with
      | some fm => purchaseWeight * purchaseMin + filterWeight * fm
      | none => purchaseMin
    let blendedMax := match filterMax with
      | some fm => purchaseWeight * purchaseMax + filterWeight * fm
      | none => purchaseMax
    (blendedMin, blendedMax)

/-! ## Personality Classifier (src/ml-services/services/personality_classifier.py) -/

/-- `PERSONALITY_PROFILES`: the canonical dimension vector of each
archetype. -/
def personalityProfile : PersonalityType → Dimensions
  | .adventurousPremium => ⟨2/10, 9/10, 7/10, 6/10, 8/10⟩
  | .cautiousValueSeeker => ⟨9/10, 3/10, 5/10, 4/10, 2/10⟩
  | .loyalEnthusiast => ⟨4/10, 3/10, 8/10, 7/10, 6/10⟩
  | .bargainHunter => ⟨1, 7/10, 5/10, 5/10, 9/10⟩
  | .qualityFocused => ⟨3/10, 5/10, 6/10, 4/10, 3/10⟩
  | .trendFollower => ⟨5/10, 8/10, 7/10, 7/10, 7/10⟩
  | .practicalShopper => ⟨6/10, 4/10, 5/10, 3/10, 5/10⟩
  | .impulseBuyer => ⟨4/10, 9/10, 6/10, 8/10, 1⟩

/-- The iteration order of the `PERSONALITY_PROFILES` dict (insertion
order of the Python literal). -/
def personalityProfilesList : List PersonalityType :=
  [.adventurousPremium, .cautiousValueSeeker, .loyalEnthusiast, .bargainHunter,
   .qualityFocused, .trendFollower, .practicalShopper, .impulseBuyer]

/-- The squared weighted distance accumulated by `PersonalityClassifier.classify`
before `** 0.5` is taken: `Σ weight · |user − profile|²` with the
`DIMENSION_WEIGHTS` (0.25, 0.20, 0.15, 0.20, 0.20). -/
def weightedSqDistance (d : Dimensions) (t : PersonalityType) : ℚ :=
  let p := personalityProfile t
  25/100 * |d.priceSensitivity - p.priceSensitivity| ^ 2
    + 20/100 * |d.explorationTendency - p.explorationTendency| ^ 2
    + 15/100 * |d.sentimentTendency - p.sentimentTendency| ^ 2
    + 20/100 * |d.purchaseFrequency - p.purchaseFrequency| ^ 2
    + 20/100 * |d.decisionSpeed - p.decisionSpeed| ^ 2

/-- The weighted Euclidean distance `distance ** 0.5` computed per
archetype by `classify`. -/
noncomputable def classifierDistance (d : Dimensions) (t : PersonalityType) : ℝ :=
  Real.sqrt ((weightedSqDistance d t : ℚ) : ℝ)

/-- One iteration of the `classify` loop.  `none` in the second component
models the initial `best_score = float("inf")`, which every distance
beats. -/
noncomputable def classifyStep (d : Dimensions)
    (best : PersonalityType × Option ℝ) (t : PersonalityType) :
    PersonalityType × Option ℝ :=
  match best.2 with
  | none => (t, some (classifierDistance d t))
  | some s =>
    if classifierDistance d t < s then (t, some (classifierDistance d t)) else best

/-- `PersonalityClassifier.classify`: nearest archetype by weighted
distance (initial best `PRACTICAL_SHOPPER` at distance infinity) and the
confidence `max(0, min(1, 1 − best_distance))`.  The profile list is
non-empty, so the fold always ends on `some`; `getD 0` only serves
totality. -/
noncomputable def classify (d : Dimensions) : PersonalityType × ℝ :=
  let r := personalityProfilesList.foldl (classifyStep d) (.practicalShopper, none)
  (r.1, max 0 (min 1 (1 - r.2.getD 0)))

/-- `PersonalityClassifier._calculate_purchase_frequency`: bucketed average
days between orders; `0.3` when a bound is missing or there are fewer than
2 orders, `0.5` when the elapsed days are non-positive. -/
def calculatePurchaseFrequency (stats : PurchaseStats) : ℚ :=
  match stats.firstPurchase, stats.lastPurchase with
  | some firstP, some lastP =>
    if stats.totalOrders < 2 then 3/10
    else
      let totalDays : ℤ := lastP - firstP
      if totalDays ≤ 0 then 1/2
      else
        let avgDaysBetween : ℚ := (totalDays : ℚ) / ((stats.totalOrders : ℚ) - 1)
        if avgDaysBetween ≤ 7 then 1
        else if avgDaysBetween ≤ 14 then 8/10
        else if avgDaysBetween ≤ 30 then 6/10
        else if avgDaysBetween ≤ 60 then 4/10
        else if avgDaysBetween ≤ 90 then 2/10
        else 1/10
  | _, _ => 3/10

/-! ## Recommendation Engine helpers (src/ml-services/services/recommendation_engine.py) -/

/-- `RecommendationEngine.calculate_time_decay`: `0.5 ** (days / half_life)`,
`1.0` for negative `days_ago`. -/
noncomputable def calculateTimeDecay (daysAgo : ℝ) (halfLife : ℝ) : ℝ :=
  if daysAgo < 0 then 1 else (1/2 : ℝ) ^ (daysAgo / halfLife)

/-- `RecommendationEngine.get_days_ago` with the wall-clock reading `now`
made explicit; timestamps are days since epoch, a missing timestamp gives
`0`, and the result is clamped below by `0`. -/
def getDaysAgo (now : ℚ) (timestamp : Option ℚ) : ℚ :=
  match timestamp with
  | none => 0
  | some t => max 0 (now - t)

/-- `RecommendationEngine.calculate_adaptive_alpha`: `(0, True)` without a
personality profile, else the default alpha plus sparse-collaborative and
new-user boosts, clamped to `[0.1, 0.9]`. -/
noncomputable def calculateAdaptiveAlpha (hasPersonalityProfile : Bool)
    (interactionCount : ℕ) (collaborativeCoverage : ℝ) : ℝ × Bool :=
  if !hasPersonalityProfile then (0, true)
  else
    let alpha := recommendationAlphaDefault
    let alpha :=
      if collaborativeCoverage < alphaSparseCollabThreshold then
        alpha + alphaSparseCollabBoost
      else alpha
    let alpha :=
      if interactionCount < alphaNewUserThreshold then alpha + alphaNewUserBoost
      else alpha
    (max (1/10) (min (9/10) alpha), true)

/-- Insert into an ascending-sorted list of rationals (used to model the
sort `numpy.percentile` performs internally). -/
def insertAsc (x : ℚ) : List ℚ → List ℚ
  | [] => [x]
  | y :: ys => if x < y then x :: y :: ys else y :: insertAsc x ys

/-- Ascending insertion sort of rationals. -/
def sortAsc (l : List ℚ) : List ℚ := l.foldr insertAsc []

/-- `numpy.percentile` with the default linear-interpolation method: at
fractional rank `(n−1)·p/100`, interpolate between the two neighbouring
order statistics. -/
def percentile (values : List ℚ) (p : ℚ) : ℚ :=
  let s := sortAsc values
  let n := s.length
  if n = 0 then 0
  else
    let rank : ℚ := ((n : ℚ) - 1) * p / 100
    let i : ℕ := (⌊rank⌋).toNat
    let frac : ℚ := rank - (i : ℚ)
    let lo := s.getD i 0
    let hi := s.getD (i + 1) lo
    lo + frac * (hi - lo)

/-- The positively-priced purchase prices collected by
`calculate_price_preference` (`if price and float(price) > 0`). -/
def pricedPurchasePrices (purchases : List PurchaseRecord) : List ℚ :=
  purchases.filterMap (fun p =>
    match p.price with
    | some q => if 0 < q then some q else none
    | none => none)

/-- `RecommendationEngine.calculate_price_preference`: `none` models the
unrestricted `(0, inf)` range returned for fewer than 3 positively-priced
purchases; otherwise the 25th–75th percentile range with ±20% buffer,
blended with the filter-derived range when one exists. -/
def calculatePricePreference (purchases : List PurchaseRecord)
    (interactions : List Interaction) : Option (ℚ × ℚ) :=
  let prices := pricedPurchasePrices purchases
  if prices.length < 3 then none
  else
    let p25 := percentile prices 25
    let p75 := percentile prices 75
    let purchaseMin := p25 * (8/10)
    let purchaseMax := p75 * (12/10)
    if interactions ≠ [] then
      let fs := extractPriceSignals interactions
      if fs.1 ≠ none ∨ fs.2 ≠ none then
        some (blendPriceRanges purchaseMin purchaseMax fs.1 fs.2)
      else some (purchaseMin, purchaseMax)
    else some (purchaseMin, purchaseMax)

/-- `RecommendationEngine.score_price_preference`: `0` without a preferred
range (`preferred_max == inf`), the boost inside the range, the penalty
below half the minimum or above twice the maximum. -/
def scorePricePreference (productPrice : ℚ) (preferred : Option (ℚ × ℚ)) : ℚ :=
  match preferred with
  | none => 0
  | some (preferredMin, preferredMax) =>
    if preferredMin ≤ productPrice ∧ productPrice ≤ preferredMax then
      pricePreferenceBoost
    else if productPrice < preferredMin * (1/2) ∨ productPrice > preferredMax * 2 then
      -pricePreferencePenalty
    else 0

/-! ## Recommendation Engine: score accumulator state

`product_scores` is a `defaultdict` from product id to a per-candidate
accumulator dict; it is modelled as an insertion-ordered association
list (Python dicts preserve insertion order, and overwriting keeps the
original position). -/

/-- A returned recommendation entry (`models/schemas.py`,
`RecommendationItem`). -/
structure RecommendationItem where
  productId : ℕ
  name : String
  score : ℝ
  reason : String
  categoryId : Option ℕ
  categoryName : Option String
  price : Option ℚ
  imageUrl : Option String

/-- The per-candidate accumulator dict created by the `defaultdict`. -/
structure ScoreData where
  score : ℝ
  behavioralScore : ℝ
  personalityScore : ℝ
  reasons : List String
  product : Option Product
  primaryReason : Option String

/-- The `defaultdict` default value. -/
def ScoreData.dflt : ScoreData := ⟨0, 0, 0, [], none, none⟩

/-- The `product_scores` accumulator map. -/
abbrev ScoreMap := List (ℕ × ScoreData)

/-- Generic dict assignment `m[key] = v` on an insertion-ordered
association list: overwriting keeps the original position, a fresh key is
appended. -/
def setAssoc {α : Type _} (m : List (ℕ × α)) (key : ℕ) (v : α) : List (ℕ × α) :=
  if key ∈ m.map Prod.fst then m.map (fun e => if e.1 = key then (e.1, v) else e)
  else m ++ [(key, v)]

/-- Generic dict lookup `m.get(key)`. -/
def lookupAssoc {α : Type _} (m : List (ℕ × α)) (key : ℕ) : Option α :=
  (m.find? (fun e => e.1 = key)).map Prod.snd

/-- Mutating access `product_scores[pid]` on the `defaultdict`: apply `f`
to the stored accumulator, materialising the default for a fresh key. -/
def updateScore (m : ScoreMap) (pid : ℕ) (f : ScoreData → ScoreData) : ScoreMap :=
  if pid ∈ m.map Prod.fst then
    m.map (fun e => if e.1 = pid then (e.1, f e.2) else e)
  else m ++ [(pid, f ScoreData.dflt)]

/-- Set-like insert used for `selected_categories.add` and the session
category set. -/
def insertCategory (l : List ℕ) (c : ℕ) : List ℕ := if c ∈ l then l else l ++ [c]

/-- `personality_type.value.replace("_", " ")` for the reason template. -/
def personalityTypeName : PersonalityType → String
  | .adventurousPremium => "adventurous premium"
  | .cautiousValueSeeker => "cautious value seeker"
  | .loyalEnthusiast => "loyal enthusiast"
  | .bargainHunter => "bargain hunter"
  | .qualityFocused => "quality focused"
  | .trendFollower => "trend follower"
  | .practicalShopper => "practical shopper"
  | .impulseBuyer => "impulse buyer"

/-! ## Recommendation Engine: category affinity and personality boost -/

/-- `category_scores[cat] += w` on the affinity `defaultdict(float)`. -/
noncomputable def affinityAdd (scores : List (ℕ × ℝ)) (cat : ℕ) (w : ℝ) : List (ℕ × ℝ) :=
  if cat ∈ scores.map Prod.fst then
    scores.map (fun e => if e.1 = cat then (e.1, e.2 + w) else e)
  else scores ++ [(cat, w)]

/-- The maximum of the affinity values, `1` for an empty map (the
`max(...) if category_scores else 1` fallback). -/
noncomputable def affinityMax (scores : List (ℕ × ℝ)) : ℝ :=
  match scores with
  | [] => 1
  | e :: es => es.foldl (fun m x => max m x.2) e.2

/-- `RecommendationEngine.calculate_category_affinity`: time-decayed
weighted counts (purchases ×3, wishlist ×2, views ×1, filter affinity
×1.5), normalised by the single maximum category score; `[]` when the
total weight is zero. -/
noncomputable def calculateCategoryAffinity (purchases : List PurchaseRecord)
    (views : List ViewRecord) (wishlist : List WishRecord)
    (interactions : List Interaction) (now : ℚ) : List (ℕ × ℝ) :=
  let s0 : List (ℕ × ℝ) × ℝ := ([], 0)
  let s1 := purchases.foldl (fun acc p =>
    if p.categoryId ≠ 0 then
      let w := 3 * calculateTimeDecay (↑(getDaysAgo now p.timestamp)) decayHalfLifePurchases
      (affinityAdd acc.1 p.categoryId w, acc.2 + w)
    else acc) s0
  let s2 := wishlist.foldl (fun acc p =>
    if p.categoryId ≠ 0 then
      let w := 2 * calculateTimeDecay (↑(getDaysAgo now p.timestamp)) decayHalfLifeWishlist
      (affinityAdd acc.1 p.categoryId w, acc.2 + w)
    else acc) s1
  let s3 := views.foldl (fun acc p =>
    if p.categoryId ≠ 0 then
      let w := 1 * calculateTimeDecay (↑(getDaysAgo now p.timestamp)) decayHalfLifeViews
      (affinityAdd acc.1 p.categoryId w, acc.2 + w)
    else acc) s2
  let s4 :=
    if interactions.isEmpty then s3
    else
      (calculateFilterBasedCategoryAffinity interactions).foldl (fun acc e =>
        let w := filterCategoryAffinityWeight * (e.2 : ℝ)
        (affinityAdd acc.1 e.1 w, acc.2 + w)) s3
  if 0 < s4.2 then
    let maxScore := affinityMax s4.1
    s4.1.map (fun e => (e.1, e.2 / maxScore))
  else []

/-- `RecommendationEngine._get_personality_product_boost`: archetype rule
table producing a boost score per (truthy-id) product, capped at `1`. -/
noncomputable def personalityProductBoost (pt : PersonalityType)
    (products : List Product) : List (ℕ × ℝ) :=
  products.foldl (fun boosts product =>
    if product.id = 0 then boosts
    else
      let price := product.price.getD 0
      let isOnSale := product.isOnSale.getD (decide (0 < product.discount))
      let rating := product.rating.getD (7/2)
      let popularity := product.popularity.getD 0
      let score : ℝ := 1/2
      let score : ℝ :=
        match pt with
        | .adventurousPremium =>
          score + (if product.isNew then 3/10 else 0) + (if 50 < price then 2/10 else 0)
        | .cautiousValueSeeker =>
          score + (if 4 ≤ rating then 3/10 else 0) + (if isOnSale then 2/10 else 0)
        | .bargainHunter =>
          score + (if isOnSale then 4/10 else 0) + (if price < 30 then 2/10 else 0)
        | .qualityFocused =>
          score + (if 9/2 ≤ rating then 4/10 else 0) + (if 40 < price then 1/10 else 0)
        | .trendFollower =>
          score + (if popularity ≠ 0 ∧ 100 < popularity then 3/10 else 0)
            + (if product.isNew then 2/10 else 0)
        | .impulseBuyer =>
          score + (if product.isNew then 2/10 else 0) + (if isOnSale then 2/10 else 0)
            + (if product.imageUrl ≠ none then 1/10 else 0)
        | .loyalEnthusiast => score + (if 4 ≤ rating then 2/10 else 0)
        | .practicalShopper =>
          score + (if 7/2 ≤ rating ∧ price < 50 then 3/10 else 0)
      setAssoc boosts product.id (min score 1)) []

/-! ## Recommendation Engine: scoring stages of `get_recommendations` -/

/-- Cold-start branch: popularity-ranked scores `1 − 0.05·i` for
non-excluded truthy product ids. -/
noncomputable def coldStartScores (popularProducts : List Product)
    (purchasedIds negativeIds : List ℕ) : ScoreMap :=
  popularProducts.enum.foldl (fun scores ip =>
    let i := ip.1
    let product := ip.2
    if product.id ≠ 0 ∧ product.id ∉ purchasedIds ∧ product.id ∉ negativeIds then
      setAssoc scores product.id
        ⟨1 - (i : ℝ) * (5/100), 1 - (i : ℝ) * (5/100), 0, ["Bestseller"],
         some product, some "popular"⟩
    else scores) []

/-- The score-map entry created for the popular product at 0-based
popularity rank `ip.1`. -/
noncomputable def popEntry (ip : ℕ × Product) : ℕ × ScoreData :=
  (ip.2.id, ⟨1 - (ip.1 : ℝ) * (5/100), 1 - (ip.1 : ℝ) * (5/100), 0, ["Bestseller"],
   some ip.2, some "popular"⟩)

/-- Collaborative-filtering component: add each collaborative score to the
behavioral accumulator of non-excluded products. -/
noncomputable def collaborativeStage (scores : ScoreMap)
    (collaborativeScores : List (ℕ × ℝ)) (alphaUsed : ℝ)
    (purchasedIds negativeIds : List ℕ) : ScoreMap :=
  if collaborativeScores.isEmpty then scores
  else if alphaUsed < 1 then
    collaborativeScores.foldl (fun acc e =>
      if e.1 ≠ 0 ∧ e.1 ∉ purchasedIds ∧ e.1 ∉ negativeIds then
        updateScore acc e.1 (fun d =>
          ⟨d.score, d.behavioralScore + e.2, d.personalityScore,
           d.reasons ++ ["Based on similar users"], d.product, d.primaryReason⟩)
      else acc) scores
  else scores

/-- Content-based component: add the similarity score (default
`1 − 0.1·i`) to the behavioral accumulator and attach the product data. -/
noncomputable def contentStage (scores : ScoreMap) (contentSimilar : List Product)
    (alphaUsed : ℝ) (purchasedIds negativeIds : List ℕ) : ScoreMap :=
  if contentSimilar.isEmpty then scores
  else if alphaUsed < 1 then
    contentSimilar.enum.foldl (fun acc ip =>
      let i := ip.1
      let product := ip.2
      if product.id ≠ 0 ∧ product.id ∉ purchasedIds ∧ product.id ∉ negativeIds then
        let contentScore := product.score.getD (1 - (i : ℝ) * (1/10))
        updateScore acc product.id (fun d =>
          ⟨d.score, d.behavioralScore + contentScore, d.personalityScore,
           d.reasons ++ ["Similar to items you have viewed"],
           (match d.product with | none => some product | some p => some p),
           d.primaryReason⟩)
      else acc) scores
  else scores

/-- Personality component: add the archetype boost to the personality
accumulator of non-excluded products. -/
noncomputable def personalityStage (scores : ScoreMap)
    (userProfile : Option PersonalityType) (alphaUsed : ℝ)
    (allProducts : List Product) (purchasedIds negativeIds : List ℕ) : ScoreMap :=
  match userProfile with
  | some personalityType =>
    if 0 < alphaUsed then
      (personalityProductBoost personalityType allProducts).foldl (fun acc e =>
        if e.1 ∉ purchasedIds ∧ e.1 ∉ negativeIds then
          updateScore acc e.1 (fun d =>
            ⟨d.score, d.behavioralScore, d.personalityScore + e.2,
             d.reasons ++
               ["Matches your " ++ personalityTypeName personalityType ++ " style"],
             d.product,
             (match d.primaryReason with
              | none => some "personality"
              | some r => some r)⟩)
        else acc) scores
    else scores
  | none => scores

/-- Alpha blending: `score = α·personality + (1−α)·behavioral`, the
behavioral part averaged when both collaborative and content sources
contributed. -/
noncomputable def blendStage (scores : ScoreMap) (collaborativeScores : List (ℕ × ℝ))
    (contentSimilar : List Product) (alphaUsed : ℝ) : ScoreMap :=
  scores.map (fun e =>
    let behavioral := e.2.behavioralScore
    let personality := e.2.personalityScore
    let behavioralCount : ℕ :=
      (if ¬collaborativeScores.isEmpty ∧ e.1 ∈ collaborativeScores.map Prod.fst then 1 else 0)
        + (if contentSimilar.any (fun p => p.id = e.1) then 1 else 0)
    let behavioral :=
      if 1 < behavioralCount then behavioral / (behavioralCount : ℝ) else behavioral
    (e.1, ⟨alphaUsed * personality + (1 - alphaUsed) * behavioral,
           e.2.behavioralScore, e.2.personalityScore, e.2.reasons, e.2.product,
           e.2.primaryReason⟩))

/-- Wishlist boost: `+0.4 · decay(days, 14)` from timestamped records, or
a flat `+0.4` from `wishlist_ids` matched against `all_products` when no
records were supplied. -/
noncomputable def wishlistStage (scores : ScoreMap) (wishlist : List WishRecord)
    (wishlistIds : List ℕ) (allProducts : List Product)
    (purchasedIds negativeIds : List ℕ) (now : ℚ) : ScoreMap :=
  if ¬wishlist.isEmpty then
    wishlist.foldl (fun acc w =>
      if w.productId ≠ 0 ∧ w.productId ∉ purchasedIds ∧ w.productId ∉ negativeIds then
        let decay := calculateTimeDecay (↑(getDaysAgo now w.timestamp)) decayHalfLifeWishlist
        updateScore acc w.productId (fun d =>
          ⟨d.score + (4/10) * decay, d.behavioralScore, d.personalityScore,
           d.reasons ++ ["From your wishlist"], d.product, some "wishlist"⟩)
      else acc) scores
  else if ¬wishlistIds.isEmpty ∧ ¬allProducts.isEmpty then
    allProducts.foldl (fun acc product =>
      if product.id ≠ 0 ∧ product.id ∈ wishlistIds ∧ product.id ∉ purchasedIds ∧
          product.id ∉ negativeIds then
        updateScore acc product.id (fun d =>
          ⟨d.score + 4/10, d.behavioralScore, d.personalityScore,
           d.reasons ++ ["From your wishlist"],
           (match d.product with | none => some product | some p => some p),
           some "wishlist"⟩)
      else acc) scores
  else scores

/-- The per-product most-recent-view decay map (`viewed_products_decay`):
the highest decay value wins. -/
noncomputable def viewedDecayMap (views : List ViewRecord)
    (purchasedIds negativeIds negativeReviewed : List ℕ) (now : ℚ) : List (ℕ × ℝ) :=
  views.foldl (fun acc v =>
    if v.productId ≠ 0 ∧ v.productId ∉ purchasedIds ∧ v.productId ∉ negativeIds ∧
        v.productId ∉ negativeReviewed then
      let decay := calculateTimeDecay (↑(getDaysAgo now v.timestamp)) decayHalfLifeViews
      match lookupAssoc acc v.productId with
      | none => acc ++ [(v.productId, decay)]
      | some prev => if prev < decay then setAssoc acc v.productId decay else acc
    else acc) []

/-- Viewed-products boost: `+0.2 · decay(days, 7)` once per product from
the most recent view, or a flat `+0.2` from `viewed_ids` matched against
`all_products` when no records were supplied. -/
noncomputable def viewsStage (scores : ScoreMap) (views : List ViewRecord)
    (viewedIds : List ℕ) (allProducts : List Product)
    (purchasedIds negativeIds negativeReviewed : List ℕ) (now : ℚ) : ScoreMap :=
  if ¬views.isEmpty then
    (viewedDecayMap views purchasedIds negativeIds negativeReviewed now).foldl
      (fun acc e =>
        updateScore acc e.1 (fun d =>
          ⟨d.score + (2/10) * e.2, d.behavioralScore, d.personalityScore,
           d.reasons ++ ["You viewed this recently"], d.product, d.primaryReason⟩))
      scores
  else if ¬viewedIds.isEmpty ∧ ¬allProducts.isEmpty then
    allProducts.foldl (fun acc product =>
      if product.id ≠ 0 ∧ product.id ∈ viewedIds ∧ product.id ∉ purchasedIds ∧
          product.id ∉ negativeIds ∧ product.id ∉ negativeReviewed then
        updateScore acc product.id (fun d =>
          ⟨d.score + 2/10, d.behavioralScore, d.personalityScore,
           d.reasons ++ ["You viewed this recently"],
           (match d.product with | none => some product | some p => some p),
           d.primaryReason⟩)
      else acc) scores
  else scores

/-- The categories of the current session items: taken from
`session_products` when supplied (truthy category ids only), else looked
up in `all_products` (where a missing category id, encoded `0`, is added
as Python adds `None` to the set). -/
def sessionCategoriesOf (sessionProducts allProducts : List Product)
    (sessionIds : List ℕ) : List ℕ :=
  if ¬sessionProducts.isEmpty then
    sessionProducts.foldl (fun acc sp =>
      if sp.categoryId ≠ 0 then insertCategory acc sp.categoryId else acc) []
  else
    allProducts.foldl (fun acc sp =>
      if sp.id ∈ sessionIds then insertCategory acc sp.categoryId else acc) []

/-- Session boost: `+0.3` for non-excluded products sharing a category
with session-viewed items, the session items themselves excluded. -/
noncomputable def sessionStage (scores : ScoreMap) (sessionIds : List ℕ)
    (sessionProducts allProducts : List Product)
    (purchasedIds negativeIds : List ℕ) : ScoreMap :=
  if ¬sessionIds.isEmpty ∧ ¬allProducts.isEmpty then
    let sessionCategories := sessionCategoriesOf sessionProducts allProducts sessionIds
    allProducts.foldl (fun acc product =>
      if product.id ≠ 0 ∧ product.id ∉ purchasedIds ∧ product.id ∉ negativeIds ∧
          product.id ∉ sessionIds ∧ product.categoryId ∈ sessionCategories then
        updateScore acc product.id (fun d =>
          ⟨d.score + sessionBoostWeight, d.behavioralScore, d.personalityScore,
           d.reasons ++ ["Related to your recent browsing"], d.product,
           d.primaryReason⟩)
      else acc) scores
  else scores

/-- The `category_names` dict lookup for the affinity reason text: the
last product of the category wins (dict-comprehension overwrite); a stored
missing name renders as Python prints `None`. -/
def categoryReasonName (allProducts : List Product) (categoryId : ℕ) : String :=
  match (allProducts.filter (fun p => p.categoryId = categoryId)).getLast? with
  | some p => match p.categoryName with | some nm => nm | none => "None"
  | none => "your favorites"

/-- Category-affinity boost: `+0.4` for products in the top-5 affinity
categories, a further `+0.3` for the single top category. -/
noncomputable def categoryBoostStage (scores : ScoreMap)
    (categoryAffinity : List (ℕ × ℝ)) (topCategoryIds : List ℕ)
    (topCategoryId : Option ℕ) (allProducts : List Product)
    (purchasedIds negativeIds : List ℕ) : ScoreMap :=
  if ¬categoryAffinity.isEmpty ∧ ¬allProducts.isEmpty then
    allProducts.foldl (fun acc product =>
      if product.id ≠ 0 ∧ product.id ∉ purchasedIds ∧ product.id ∉ negativeIds ∧
          product.categoryId ≠ 0 then
        if product.categoryId ∈ topCategoryIds then
          let boosted := updateScore acc product.id (fun d =>
            ⟨d.score + categoryAffinityBoost, d.behavioralScore, d.personalityScore,
             ("Popular in " ++ categoryReasonName allProducts product.categoryId)
               :: d.reasons,
             d.product, some "category_affinity"⟩)
          if topCategoryId = some product.categoryId then
            updateScore boosted product.id (fun d =>
              ⟨d.score + categoryAffinityTopBoost, d.behavioralScore,
               d.personalityScore, d.reasons, d.product, d.primaryReason⟩)
          else boosted
        else acc
      else acc) scores
  else scores

/-- Price-preference scoring: add the (nonzero) price score of each
truthy-priced, non-excluded product. -/
noncomputable def priceStage (scores : ScoreMap) (pricePreference : Option (ℚ × ℚ))
    (allProducts : List Product) (purchasedIds negativeIds : List ℕ) : ScoreMap :=
  match pricePreference with
  | some pref =>
    if ¬allProducts.isEmpty then
      allProducts.foldl (fun acc product =>
        match product.price with
        | some price =>
          if product.id ≠ 0 ∧ product.id ∉ purchasedIds ∧ product.id ∉ negativeIds ∧
              price ≠ 0 then
            let priceScore := scorePricePreference price (some pref)
            if priceScore ≠ 0 then
              updateScore acc product.id (fun d =>
                ⟨d.score + (priceScore : ℝ), d.behavioralScore, d.personalityScore,
                 (if 0 < priceScore then
                    d.reasons ++ ["Within your preferred price range"]
                  else d.reasons),
                 d.product, d.primaryReason⟩)
            else acc
          else acc
        | none => acc) scores
    else scores
  | none => scores

/-- Negative-review penalty: `−0.5` on products the user rated ≤ 2,
applied only to products already present in the map. -/
noncomputable def negativePenaltyStage (scores : ScoreMap)
    (negativeReviewed : List ℕ) : ScoreMap :=
  negativeReviewed.foldl (fun acc pid =>
    if pid ∈ acc.map Prod.fst then
      acc.map (fun e =>
        if e.1 = pid then
          (e.1, ⟨e.2.score - 1/2, e.2.behavioralScore, e.2.personalityScore,
                 e.2.reasons, e.2.product, e.2.primaryReason⟩)
        else e)
    else acc) scores

/-- The `product_map` dict lookup (truthy ids, later entries win). -/
def productMapLookup (allProducts : List Product) (pid : ℕ) : Option Product :=
  (allProducts.filter (fun p => p.id = pid ∧ p.id ≠ 0)).getLast?

/-- Merge product data into entries that have none yet. -/
noncomputable def mergeProductsStage (scores : ScoreMap)
    (allProducts : List Product) : ScoreMap :=
  if ¬allProducts.isEmpty then
    scores.map (fun e =>
      match e.2.product with
      | some _ => e
      | none =>
        match productMapLookup allProducts e.1 with
        | some p =>
          (e.1, ⟨e.2.score, e.2.behavioralScore, e.2.personalityScore, e.2.reasons,
                 some p, e.2.primaryReason⟩)
        | none => e)
  else scores

/-! ## Recommendation Engine: sorting and the diversity selector -/

/-- Stable descending insertion for `sorted(..., key=score, reverse=True)`:
the (originally earlier) inserted element goes before every element with a
strictly smaller key and after every element with a greater-or-equal key. -/
noncomputable def insertDescBy {α : Type _} (key : α → ℝ) (x : α) :
    List α → List α
  | [] => [x]
  | y :: ys => if key x < key y then y :: insertDescBy key x ys else x :: y :: ys

/-- Stable descending sort by a real-valued key. -/
noncomputable def sortDescBy {α : Type _} (key : α → ℝ) (l : List α) : List α :=
  l.foldr (insertDescBy key) []

/-- `sorted(product_scores.items(), key=score, reverse=True)`. -/
noncomputable def sortByScoreDesc (l : ScoreMap) : ScoreMap :=
  sortDescBy (fun e => e.2.score) l

/-- The category bucket of a score-map entry inside `_apply_diversity`
(`(data.get("product") or {}).get("category_id", 0)`). -/
def entryCategoryKey (e : ℕ × ScoreData) : ℕ :=
  match e.2.product with
  | some p => p.categoryId
  | none => 0

/-- The `RecommendationItem` built from a score-map entry. -/
noncomputable def toRecommendationItem (e : ℕ × ScoreData) : RecommendationItem :=
  let product := e.2.product
  let categoryId := entryCategoryKey e
  ⟨e.1,
   (product.bind (·.name)).getD ("Product " ++ toString e.1),
   min (max e.2.score 0) 1,
   e.2.reasons.headD "Recommended for you",
   (if categoryId ≠ 0 then some categoryId else none),
   product.bind (·.categoryName),
   (match product with
    | some p => match p.price with
      | some q => if q ≠ 0 then some q else none
      | none => none
    | none => none),
   product.bind (·.imageUrl)⟩

/-- The category bucket of an output item: `categoryId` with the encoding
`none ↦ 0` undone (inverse of the `if category_id else None` conversion). -/
def itemCatKey (it : RecommendationItem) : ℕ := it.categoryId.getD 0

/-- The mutable state of `_apply_diversity`. -/
structure DiversityState where
  counts : ℕ → ℕ
  recs : List RecommendationItem
  selected : List ℕ
  skipped : List (ℕ × ScoreData)

/-- First pass: accept in order while the per-category count is below the
cap, deferring category-capped items; stop at the limit. -/
noncomputable def firstPass (limit : ℕ) :
    List (ℕ × ScoreData) → DiversityState → DiversityState
  | [], st => st
  | e :: rest, st =>
    if limit ≤ st.recs.length then st
    else
      let cat := entryCategoryKey e
      if diversityMaxPerCategory ≤ st.counts cat then
        firstPass limit rest ⟨st.counts, st.recs, st.selected, st.skipped ++ [e]⟩
      else
        firstPass limit rest
          ⟨fun c => if c = cat then st.counts cat + 1 else st.counts c,
           st.recs ++ [toRecommendationItem e],
           insertCategory st.selected cat,
           st.skipped⟩

/-- Second pass: pull deferred items whose category is not yet selected,
until the limit. -/
noncomputable def secondPass (limit : ℕ) :
    List (ℕ × ScoreData) → DiversityState → DiversityState
  | [], st => st
  | e :: rest, st =>
    if limit ≤ st.recs.length then st
    else
      let cat := entryCategoryKey e
      if cat ∉ st.selected then
        secondPass limit rest
          ⟨fun c => if c = cat then st.counts cat + 1 else st.counts c,
           st.recs ++ [toRecommendationItem e],
           st.selected ++ [cat],
           st.skipped⟩
      else secondPass limit rest st

/-- `RecommendationEngine._apply_diversity`. -/
noncomputable def applyDiversity (sortedProducts : List (ℕ × ScoreData))
    (limit : ℕ) : List RecommendationItem :=
  let st := firstPass limit sortedProducts ⟨fun _ => 0, [], [], []⟩
  if st.selected.length < diversityMinCategories ∧ st.recs.length < limit then
    (secondPass limit st.skipped st).recs
  else st.recs

/-! ## Recommendation Engine: `get_recommendations` -/

/-- The explicit inputs of `RecommendationEngine.get_recommendations`.
`userProfile = some t` models a truthy profile dict whose
`personality_type` is `t`; the `Optional[list]` parameters are plain
lists, `[]` covering both `None` and an empty (falsy) value exactly as
`x or []` does. -/
structure RecInput where
  userId : ℕ
  limit : ℕ
  userProfile : Option PersonalityType
  purchasedProductIds : List ℕ
  wishlistIds : List ℕ
  viewedIds : List ℕ
  reviews : List Review
  collaborativeScores : List (ℕ × ℝ)
  contentSimilar : List Product
  popularProducts : List Product
  allProducts : List Product
  purchases : List PurchaseRecord
  wishlist : List WishRecord
  views : List ViewRecord
  negativeFeedbackIds : List ℕ
  sessionProductIds : List ℕ
  sessionProducts : List Product
  alpha : Option ℝ
  allInteractions : List Interaction

/-- The returned tuple `(recommendations, strategy, alpha_used,
alpha_adaptive)`. -/
structure RecResult where
  recommendations : List RecommendationItem
  strategy : String
  alphaUsed : ℝ
  alphaAdaptive : Bool

/-- The alpha computation of `get_recommendations`: an explicit alpha is
clamped to `[0, 1]` and reported non-adaptive, otherwise
`calculate_adaptive_alpha` runs on the interaction count (set
cardinalities) and the collaborative coverage
`len(collaborative_scores) / max(len(all_products), 1)`. -/
noncomputable def alphaSelection (inp : RecInput) : ℝ × Bool :=
  match inp.alpha with
  | some a => (max 0 (min 1 a), false)
  | none =>
    let interactionCount :=
      inp.purchasedProductIds.dedup.length + inp.wishlistIds.dedup.length
        + inp.viewedIds.dedup.length
    let totalProducts := inp.allProducts.length
    let collabCoverage : ℝ :=
      (inp.collaborativeScores.length : ℝ) / ((max totalProducts 1 : ℕ) : ℝ)
    calculateAdaptiveAlpha inp.userProfile.isSome interactionCount collabCoverage

/-- The `negative_reviewed` set: products the user rated at most 2. -/
def negativeReviewedOf (reviews : List Review) : List ℕ :=
  ((reviews.filter (fun r => r.rating ≤ 2)).map (·.productId)).dedup

/-- The cold-start test of `get_recommendations`:
`not has_collaborative and not has_content and not has_interactions`,
where `has_interactions = bool(wishlist_set or viewed_set or purchased_ids)`. -/
def coldStart (inp : RecInput) : Bool :=
  inp.collaborativeScores.isEmpty && inp.contentSimilar.isEmpty &&
    (inp.wishlistIds.isEmpty && inp.viewedIds.isEmpty &&
      inp.purchasedProductIds.isEmpty)

/-- The category-affinity map computed by `get_recommendations` (only when
some timestamped history exists). -/
noncomputable def categoryAffinityOf (inp : RecInput) (now : ℚ) : List (ℕ × ℝ) :=
  if ¬inp.purchases.isEmpty ∨ ¬inp.wishlist.isEmpty ∨ ¬inp.views.isEmpty then
    calculateCategoryAffinity inp.purchases inp.views inp.wishlist
      inp.allInteractions now
  else []

/-- The top-5 affinity categories by descending score. -/
noncomputable def topCategoriesOf (inp : RecInput) (now : ℚ) : List (ℕ × ℝ) :=
  (sortDescBy Prod.snd (categoryAffinityOf inp now)).take categoryAffinityTopN

/-- The `product_scores` map after every scoring stage of
`get_recommendations` (before product-data merging and sorting): either
the cold-start popularity scores or the hybrid stage chain. -/
noncomputable def recommendationScores (inp : RecInput) (now : ℚ) : ScoreMap :=
  let purchasedIds := inp.purchasedProductIds
  let negativeIds := inp.negativeFeedbackIds
  let negativeReviewed := negativeReviewedOf inp.reviews
  let alphaUsed := (alphaSelection inp).1
  let categoryAffinity := categoryAffinityOf inp now
  let pricePreference := calculatePricePreference inp.purchases inp.allInteractions
  let topCategories := topCategoriesOf inp now
  let topCategoryIds := topCategories.map Prod.fst
  let topCategoryId := (topCategories.head?).map Prod.fst
  if coldStart inp then coldStartScores inp.popularProducts purchasedIds negativeIds
  else
    let s := collaborativeStage [] inp.collaborativeScores alphaUsed purchasedIds
      negativeIds
    let s := contentStage s inp.contentSimilar alphaUsed purchasedIds negativeIds
    let s := personalityStage s inp.userProfile alphaUsed inp.allProducts
      purchasedIds negativeIds
    let s := blendStage s inp.collaborativeScores inp.contentSimilar alphaUsed
    let s := wishlistStage s inp.wishlist inp.wishlistIds inp.allProducts
      purchasedIds negativeIds now
    let s := viewsStage s inp.views inp.viewedIds inp.allProducts purchasedIds
      negativeIds negativeReviewed now
    let s := sessionStage s inp.sessionProductIds inp.sessionProducts
      inp.allProducts purchasedIds negativeIds
    let s := categoryBoostStage s categoryAffinity topCategoryIds topCategoryId
      inp.allProducts purchasedIds negativeIds
    let s := priceStage s pricePreference inp.allProducts purchasedIds negativeIds
    negativePenaltyStage s negativeReviewed

/-- `RecommendationEngine.get_recommendations`, with the wall-clock
reading `now` (days since epoch) made an explicit argument.  The
`positive_reviewed` set of the source is computed but never read and is
omitted. -/
noncomputable def getRecommendations (inp : RecInput) (now : ℚ) : RecResult :=
  let scores := mergeProductsStage (recommendationScores inp now) inp.allProducts
  let sortedProducts := sortByScoreDesc scores
  let recommendations := applyDiversity sortedProducts inp.limit
  ⟨recommendations, if coldStart inp then "popular" else "hybrid",
   (alphaSelection inp).1, (alphaSelection inp).2⟩

/-! ## Concrete instances used by witnesses and counterexamples -/

/-- A single filter event selecting category 5. -/
def c4FilterEvent : Interaction := ⟨some ⟨none, none, some 5⟩⟩

/-- The purchases `[$20, $25, $30, $100]` of the price-preference example. -/
def c7Purchases : List PurchaseRecord :=
  [⟨1, 0, some 20, none⟩, ⟨2, 0, some 25, none⟩,
   ⟨3, 0, some 30, none⟩, ⟨4, 0, some 100, none⟩]

/-- Two priced purchases (below the 3-purchase threshold). -/
def c7FewPurchases : List PurchaseRecord :=
  [⟨1, 0, some 20, none⟩, ⟨2, 0, some 25, none⟩]

/-- The dimension map of the classification example. -/
def c8Dims : Dimensions := ⟨9/10, 3/10, 5/10, 4/10, 2/10⟩

/-- Purchase stats with 3 orders whose first and last purchase fall on the
same day. -/
def c10Stats : PurchaseStats := ⟨some 100, some 100, 3⟩

/-- An empty-everything recommendation input (cold-start user). -/
noncomputable def emptyRecInput : RecInput :=
  ⟨1, 10, none, [], [], [], [], [], [], [], [], [], [], [], [], [], [], none, []⟩

/-- A minimal product in category `c` with id `pid`. -/
def plainProduct (pid c : ℕ) : Product :=
  ⟨pid, c, none, none, none, false, none, 0, none, none, none, none⟩

/-- Input with an explicit out-of-range alpha `2`. -/
noncomputable def c3InpA : RecInput :=
  ⟨1, 10, none, [], [], [], [], [], [], [], [], [], [], [], [], [], [], some 2, []⟩

/-- Input with no alpha and no personality profile. -/
noncomputable def c3InpB : RecInput := emptyRecInput

/-- Input with no alpha, a profile, one candidate product, no
collaborative scores and no interactions. -/
noncomputable def c3InpC : RecInput :=
  ⟨1, 10, some .practicalShopper, [], [], [], [], [], [], [], [plainProduct 1 1],
   [], [], [], [], [], [], none, []⟩

/-- A history-free user facing three popular products in three distinct
categories (cold-start witness input). -/
noncomputable def c5Inp : RecInput :=
  ⟨1, 10, none, [], [], [], [], [], [],
   [plainProduct 1 1, plainProduct 2 2, plainProduct 3 3],
   [], [], [], [], [], [], [], none, []⟩

/-- A score-map entry with product `pid` in category `cat` and score `s`. -/
noncomputable def c2Entry (pid cat : ℕ) (s : ℝ) : ℕ × ScoreData :=
  (pid, ⟨s, 0, 0, [], some (plainProduct pid cat), none⟩)

/-- Five score-sorted candidates: three of category 1 ahead of one each of
categories 2 and 3. -/
noncomputable def c2Sorted : List (ℕ × ScoreData) :=
  [c2Entry 1 1 5, c2Entry 2 1 4, c2Entry 3 1 3, c2Entry 4 2 2, c2Entry 5 3 1]

/-- A product id outside both exclusion sets (the invariant every scoring
guard enforces). -/
def NotExcluded (purchasedIds negativeIds : List ℕ) (pid : ℕ) : Prop :=
  pid ∉ purchasedIds ∧ pid ∉ negativeIds

/-- Input whose only signal is one wishlist id over one candidate
product, with non-empty purchased and negative-feedback sets. -/
noncomputable def c1Inp : RecInput :=
  ⟨1, 10, none, [2], [1], [], [], [], [], [], [plainProduct 1 1],
   [], [], [], [3], [], [], none, []⟩

/-- The single item `c1Inp` produces: the wishlist fallback boost `+0.4`
on product 1. -/
noncomputable def c1Item : RecommendationItem :=
  ⟨1, "Product 1", min (max (0 + 4/10) 0) 1, "From your wishlist", some 1,
   none, none, none⟩

/-- Input with one timestamped wishlist record (added on day 0) for
product 1; all other signals empty. -/
noncomputable def c6Inp : RecInput :=
  ⟨1, 10, none, [], [1], [], [], [], [], [], [], [], [⟨1, 0, some 0⟩], [], [],
   [], [], none, []⟩

/-! ## Theorems.  C9: the time-decay function -/

/-- C9: the time-decay function satisfies `decay(d, h) = 0.5 ^ (d / h)`
for `d ≥ 0` and equals `1.0` for every non-positive `d`; for every
half-life `h > 0`, `decay(0, h) = 1`, `decay(h, h) = 0.5`, and decay is
monotonically non-increasing in the elapsed days. -/
theorem c9_time_decay :
    (∀ d h : ℝ, 0 ≤ d → calculateTimeDecay d h = (1/2 : ℝ) ^ (d / h)) ∧
    (∀ d h : ℝ, d ≤ 0 → calculateTimeDecay d h = 1) ∧
    (∀ h : ℝ, 0 < h →
      calculateTimeDecay 0 h = 1 ∧ calculateTimeDecay h h = 1/2 ∧
      ∀ d₁ d₂ : ℝ, d₁ ≤ d₂ → calculateTimeDecay d₂ h ≤ calculateTimeDecay d₁ h) := by
  refine ⟨?_, ?_, ?_⟩
  · intro d h hd
    unfold calculateTimeDecay
    rw [if_neg (not_lt.2 hd)]
  · intro d h hd
    unfold calculateTimeDecay
    rcases lt_or_eq_of_le hd with h' | h'
    · rw [if_pos h']
    · subst h'
      rw [if_neg (lt_irrefl 0), zero_div, Real.rpow_zero]
  · intro h hh
    refine ⟨?_, ?_, ?_⟩
    · unfold calculateTimeDecay
      rw [if_neg (lt_irrefl 0), zero_div, Real.rpow_zero]
    · unfold calculateTimeDecay
      rw [if_neg (not_lt.2 hh.le), div_self (ne_of_gt hh), Real.rpow_one]
    · intro d₁ d₂ h12
      unfold calculateTimeDecay
      by_cases hd2 : d₂ < 0
      · rw [if_pos hd2, if_pos (lt_of_le_of_lt h12 hd2)]
      · rw [if_neg hd2]
        by_cases hd1 : d₁ < 0
        · rw [if_pos hd1]
          exact Real.rpow_le_one (by norm_num) (by norm_num)
            (div_nonneg (not_lt.1 hd2) hh.le)
        · rw [if_neg hd1]
          refine Real.rpow_le_rpow_of_exponent_ge (by norm_num) (by norm_num) ?_
          gcongr

/-- Witness for C9 at `h = 14`, `d = 14` and `d = -3`. -/
theorem c9_time_decay_witness :
    (0 : ℝ) < 14 ∧ calculateTimeDecay 14 14 = 1/2 ∧
      calculateTimeDecay (-3) 14 = 1 :=
  ⟨by norm_num, (c9_time_decay.2.2 14 (by norm_num)).2.1,
   c9_time_decay.2.1 (-3) 14 (by norm_num)⟩

/-! ## C10: same-day purchases and the frequency dimension -/

/-- C10: with at least 2 orders whose first and last purchase fall on the
same day (elapsed days ≤ 0), the purchase-frequency dimension is `0.5`,
which is neither the fewer-than-2-orders default `0.3` nor any of the
frequency buckets `1.0, 0.8, 0.6, 0.4, 0.2, 0.1`. -/
theorem c10_same_day_frequency (stats : PurchaseStats) (f l : ℤ)
    (hf : stats.firstPurchase = some f) (hl : stats.lastPurchase = some l)
    (horders : 2 ≤ stats.totalOrders) (hdays : l - f ≤ 0) :
    calculatePurchaseFrequency stats = 1/2 ∧
      ∀ q ∈ ([3/10, 1, 8/10, 6/10, 4/10, 2/10, 1/10] : List ℚ),
        calculatePurchaseFrequency stats ≠ q := by
  have hres : calculatePurchaseFrequency stats = 1/2 := by
    unfold calculatePurchaseFrequency
    rw [hf, hl]
    simp only [if_neg (not_lt.2 horders), if_pos hdays]
  refine ⟨hres, ?_⟩
  intro q hq
  rw [hres]
  fin_cases hq <;> norm_num

/-- Witness for C10 at stats `(first = last = day 100, 3 orders)`. -/
theorem c10_same_day_frequency_witness :
    c10Stats.firstPurchase = some 100 ∧ c10Stats.lastPurchase = some 100 ∧
      2 ≤ c10Stats.totalOrders ∧ (100 : ℤ) - 100 ≤ 0 ∧
      calculatePurchaseFrequency c10Stats = 1/2 :=
  ⟨rfl, rfl, by decide, by decide,
   (c10_same_day_frequency c10Stats 100 100 rfl rfl (by decide) (by decide)).1⟩

/-! ## C4: the filter analyzer below the minimum-sample threshold -/

/-- C4 (counterexample): a single category-filter event (1 < 3 filter
events) already produces a non-empty category-affinity signal, so
`calculate_filter_based_category_affinity` does not honour the
`filter_min_samples` threshold. -/
theorem c4_below_threshold_counterexample :
    (extractFilterInteractions [c4FilterEvent]).length < filterMinSamples ∧
      calculateFilterBasedCategoryAffinity [c4FilterEvent] = [(5, 1)] ∧
      calculateFilterBasedCategoryAffinity [c4FilterEvent] ≠ [] := by
  refine ⟨by decide, ?_, ?_⟩ <;>
    simp [calculateFilterBasedCategoryAffinity, extractCategorySignals,
      extractFilterInteractions, c4FilterEvent, bumpCount, filterCategoryMaxWeight]

/-- C4 (amended): with fewer than `filter_min_samples` (3) filter-context
events, `extract_price_signals` returns `(None, None)` and
`calculate_price_sensitivity_signal` returns `None`; the category-affinity
method applies no such threshold (see the counterexample). -/
theorem c4_no_signal_below_threshold (interactions : List Interaction)
    (h : (extractFilterInteractions interactions).length < filterMinSamples) :
    extractPriceSignals interactions = (none, none) ∧
      calculatePriceSensitivitySignal interactions = none := by
  constructor
  · unfold extractPriceSignals
    rw [if_pos h]
  · unfold calculatePriceSensitivitySignal
    rw [if_pos h]

/-- Witness for C4 (amended) at a two-event interaction list. -/
theorem c4_no_signal_below_threshold_witness :
    (extractFilterInteractions [c4FilterEvent, c4FilterEvent]).length
        < filterMinSamples ∧
      extractPriceSignals [c4FilterEvent, c4FilterEvent] = (none, none) ∧
      calculatePriceSensitivitySignal [c4FilterEvent, c4FilterEvent] = none :=
  ⟨by decide,
   (c4_no_signal_below_threshold [c4FilterEvent, c4FilterEvent] (by decide)).1,
   (c4_no_signal_below_threshold [c4FilterEvent, c4FilterEvent] (by decide)).2⟩

/-! ## C7: price preference -/

/-- The priced purchase prices of the example. -/
lemma pricedPrices_c7 : pricedPurchasePrices c7Purchases = [20, 25, 30, 100] := by
  norm_num [pricedPurchasePrices, c7Purchases, List.filterMap_cons]

/-- The 75th percentile of the example purchase prices. -/
lemma percentile75_c7Purchases :
    percentile (pricedPurchasePrices c7Purchases) 75 = 95/2 := by
  rw [pricedPrices_c7]
  norm_num [percentile, sortAsc, insertAsc,
    (by decide : Int.toNat 0 = 0), (by decide : Int.toNat 2 = 2)]

/-- The preferred range computed from the example purchases. -/
lemma pricePreference_c7Purchases :
    calculatePricePreference c7Purchases [] = some (19, 57) := by
  simp only [calculatePricePreference, pricedPrices_c7]
  norm_num [percentile, sortAsc, insertAsc,
    (by decide : Int.toNat 0 = 0), (by decide : Int.toNat 2 = 2)]

/-- C7 (counterexample): on purchases `[$20, $25, $30, $100]` the code
computes p75 = 47.5 (numpy linear interpolation), not ≈51.25, and the
buffered range is `[19, 57]`, not ≈`[19, 61.5]`. -/
theorem c7_percentile_counterexample :
    percentile (pricedPurchasePrices c7Purchases) 75 = 95/2 ∧
      percentile (pricedPurchasePrices c7Purchases) 75 ≠ 205/4 ∧
      calculatePricePreference c7Purchases [] = some (19, 57) ∧
      calculatePricePreference c7Purchases [] ≠ some (19, 123/2) := by
  refine ⟨percentile75_c7Purchases, ?_, pricePreference_c7Purchases, ?_⟩
  · rw [percentile75_c7Purchases]
    norm_num
  · rw [pricePreference_c7Purchases]
    intro h
    have := Option.some.inj h
    have h2 := congrArg Prod.snd this
    norm_num at h2

/-- C7 (amended): fewer than 3 positively-priced purchases give the
unrestricted range (no price scoring); otherwise the range is the buffered
25th–75th percentile band (blended with filter signals when present);
price scores are `+0.15` in range, `−0.1` below half the minimum or above
twice the maximum, `0` otherwise; on `[$20,$25,$30,$100]` the band is
`[19, 57]` (p25 = 23.75, p75 = 47.5), `$25` scores `+0.15` and `$500`
scores `−0.1`. -/
theorem c7_price_preference_amended :
    (∀ purchases interactions,
      (pricedPurchasePrices purchases).length < 3 →
        calculatePricePreference purchases interactions = none) ∧
    (∀ price : ℚ, scorePricePreference price none = 0) ∧
    (∀ price mn mx : ℚ,
      (mn ≤ price ∧ price ≤ mx →
        scorePricePreference price (some (mn, mx)) = pricePreferenceBoost) ∧
      (¬(mn ≤ price ∧ price ≤ mx) → (price < mn * (1/2) ∨ mx * 2 < price) →
        scorePricePreference price (some (mn, mx)) = -pricePreferencePenalty) ∧
      (¬(mn ≤ price ∧ price ≤ mx) → ¬(price < mn * (1/2) ∨ mx * 2 < price) →
        scorePricePreference price (some (mn, mx)) = 0)) ∧
    (calculatePricePreference c7Purchases [] = some (19, 57) ∧
      scorePricePreference 25 (calculatePricePreference c7Purchases []) = 15/100 ∧
      scorePricePreference 500 (calculatePricePreference c7Purchases [])
        = -(1/10)) := by
  refine ⟨?_, ?_, ?_, ?_, ?_, ?_⟩
  · intro purchases interactions h
    unfold calculatePricePreference
    rw [if_pos h]
  · intro price
    rfl
  · intro price mn mx
    have hdef : scorePricePreference price (some (mn, mx)) =
        if mn ≤ price ∧ price ≤ mx then pricePreferenceBoost
        else if price < mn * (1/2) ∨ price > mx * 2 then -pricePreferencePenalty
        else 0 := rfl
    refine ⟨?_, ?_, ?_⟩
    · intro h
      rw [hdef, if_pos h]
    · intro h1 h2
      rw [hdef, if_neg h1, if_pos h2]
    · intro h1 h2
      rw [hdef, if_neg h1, if_neg h2]
  · exact pricePreference_c7Purchases
  · rw [pricePreference_c7Purchases]
    norm_num [scorePricePreference, pricePreferenceBoost]
  · rw [pricePreference_c7Purchases]
    norm_num [scorePricePreference, pricePreferencePenalty]

/-- Witness for C7 (amended): the below-threshold branch at 2 purchases
and the score branches at the concrete band `[19, 57]`. -/
theorem c7_price_preference_amended_witness :
    (pricedPurchasePrices c7FewPurchases).length < 3 ∧
      calculatePricePreference c7FewPurchases [] = none ∧
      ((19 : ℚ) ≤ 25 ∧ (25 : ℚ) ≤ 57) ∧
      scorePricePreference 25 (some (19, 57)) = pricePreferenceBoost ∧
      scorePricePreference 500 (some (19, 57)) = -pricePreferencePenalty :=
  ⟨by decide,
   c7_price_preference_amended.1 c7FewPurchases [] (by decide),
   by norm_num,
   (c7_price_preference_amended.2.2.1 25 19 57).1 (by norm_num),
   (c7_price_preference_amended.2.2.1 500 19 57).2.1 (by norm_num) (by norm_num)⟩

/-! ## C8: archetype classification -/

lemma weightedSqDistance_nonneg (d : Dimensions) (t : PersonalityType) :
    0 ≤ weightedSqDistance d t := by
  unfold weightedSqDistance
  positivity

lemma classifierDistance_nonneg (d : Dimensions) (t : PersonalityType) :
    0 ≤ classifierDistance d t := Real.sqrt_nonneg _

/-- The classification fold keeps the invariant that the stored score is
the distance of the stored archetype, and it minimises the distance over
the initial archetype and the processed list. -/
lemma classifyFold_min (d : Dimensions) :
    ∀ (l : List PersonalityType) (b : PersonalityType),
      (l.foldl (classifyStep d) (b, some (classifierDistance d b))).2
          = some (classifierDistance d
              (l.foldl (classifyStep d) (b, some (classifierDistance d b))).1) ∧
        classifierDistance d
            (l.foldl (classifyStep d) (b, some (classifierDistance d b))).1
          ≤ classifierDistance d b ∧
        ∀ t ∈ l,
          classifierDistance d
              (l.foldl (classifyStep d) (b, some (classifierDistance d b))).1
            ≤ classifierDistance d t := by
  intro l
  induction l with
  | nil => intro b; exact ⟨rfl, le_refl _, by intro t ht; cases ht⟩
  | cons t rest ih =>
    intro b
    have hstep : classifyStep d (b, some (classifierDistance d b)) t
        = if classifierDistance d t < classifierDistance d b
          then (t, some (classifierDistance d t))
          else (b, some (classifierDistance d b)) := rfl
    by_cases hc : classifierDistance d t < classifierDistance d b
    · rw [List.foldl_cons, hstep, if_pos hc]
      obtain ⟨h1, h2, h3⟩ := ih t
      refine ⟨h1, le_trans h2 hc.le, ?_⟩
      intro u hu
      rcases List.mem_cons.mp hu with hu | hu
      · exact hu ▸ h2
      · exact h3 u hu
    · rw [List.foldl_cons, hstep, if_neg hc]
      obtain ⟨h1, h2, h3⟩ := ih b
      refine ⟨h1, h2, ?_⟩
      intro u hu
      rcases List.mem_cons.mp hu with hu | hu
      · exact hu ▸ le_trans h2 (not_lt.1 hc)
      · exact h3 u hu

/-- The classify fold from the initial `(PRACTICAL_SHOPPER, inf)` state:
the first profile always replaces the initial state. -/
lemma classify_fold_eq (d : Dimensions) :
    personalityProfilesList.foldl (classifyStep d) (.practicalShopper, none)
      = [PersonalityType.cautiousValueSeeker, .loyalEnthusiast, .bargainHunter,
          .qualityFocused, .trendFollower, .practicalShopper, .impulseBuyer].foldl
          (classifyStep d)
          (.adventurousPremium,
            some (classifierDistance d .adventurousPremium)) := rfl

/-- The minimality and confidence shape of `classify`. -/
lemma classify_spec (d : Dimensions) :
    (∀ t : PersonalityType,
      classifierDistance d (classify d).1 ≤ classifierDistance d t) ∧
      (classify d).2 = max 0 (1 - classifierDistance d (classify d).1) := by
  have key := classifyFold_min d
    [PersonalityType.cautiousValueSeeker, .loyalEnthusiast, .bargainHunter,
      .qualityFocused, .trendFollower, .practicalShopper, .impulseBuyer]
    .adventurousPremium
  have hfst : (classify d).1
      = (personalityProfilesList.foldl (classifyStep d) (.practicalShopper, none)).1 := rfl
  constructor
  · intro t
    rw [hfst, classify_fold_eq]
    cases t with
    | adventurousPremium => exact key.2.1
    | cautiousValueSeeker => exact key.2.2 _ (by decide)
    | loyalEnthusiast => exact key.2.2 _ (by decide)
    | bargainHunter => exact key.2.2 _ (by decide)
    | qualityFocused => exact key.2.2 _ (by decide)
    | trendFollower => exact key.2.2 _ (by decide)
    | practicalShopper => exact key.2.2 _ (by decide)
    | impulseBuyer => exact key.2.2 _ (by decide)
  · have hsnd : (classify d).2
        = max 0 (min 1 (1 - ((personalityProfilesList.foldl (classifyStep d)
            (.practicalShopper, none)).2.getD 0))) := rfl
    rw [hsnd, classify_fold_eq, key.1, Option.getD_some, hfst, classify_fold_eq]
    rw [min_eq_right (sub_le_self 1 (classifierDistance_nonneg d _))]

/-- C8: `classify` returns the archetype minimising the weighted Euclidean
distance to the 8 canonical vectors with confidence `max(0, 1 − distance)`;
the example dimensions `(0.9, 0.3, 0.5, 0.4, 0.2)` classify as
cautious-value-seeker with confidence in `[0.95, 1]`. -/
theorem c8_classify_minimum_distance :
    (∀ d : Dimensions, ∀ t : PersonalityType,
      classifierDistance d (classify d).1 ≤ classifierDistance d t) ∧
      (∀ d : Dimensions,
        (classify d).2 = max 0 (1 - classifierDistance d (classify d).1)) ∧
      ((classify c8Dims).1 = .cautiousValueSeeker ∧
        95/100 ≤ (classify c8Dims).2 ∧ (classify c8Dims).2 ≤ 1) := by
  have hcvs : classifierDistance c8Dims .cautiousValueSeeker = 0 := by
    unfold classifierDistance
    rw [show weightedSqDistance c8Dims .cautiousValueSeeker = 0 by
      norm_num [weightedSqDistance, personalityProfile, c8Dims]]
    simp [Real.sqrt_zero]
  have hres0 : classifierDistance c8Dims (classify c8Dims).1 = 0 :=
    le_antisymm (hcvs ▸ (classify_spec c8Dims).1 .cautiousValueSeeker)
      (classifierDistance_nonneg _ _)
  have hq : weightedSqDistance c8Dims (classify c8Dims).1 = 0 := by
    have h0 : ((weightedSqDistance c8Dims (classify c8Dims).1 : ℚ) : ℝ) = 0 := by
      have := hres0
      unfold classifierDistance at this
      rwa [Real.sqrt_eq_zero
        (by exact_mod_cast weightedSqDistance_nonneg c8Dims _)] at this
    exact_mod_cast h0
  have hconf : (classify c8Dims).2 = 1 := by
    rw [(classify_spec c8Dims).2, hres0]
    norm_num
  refine ⟨fun d => (classify_spec d).1, fun d => (classify_spec d).2, ?_, ?_, ?_⟩
  · cases h' : (classify c8Dims).1 <;> rw [h'] at hq <;>
      first
        | rfl
        | (exfalso; norm_num [weightedSqDistance, personalityProfile, c8Dims] at hq)
  · rw [hconf]; norm_num
  · rw [hconf]

/-! ## C3: alpha selection in `get_recommendations` -/

lemma getRecommendations_alphaUsed (inp : RecInput) (now : ℚ) :
    (getRecommendations inp now).alphaUsed = (alphaSelection inp).1 := rfl

lemma getRecommendations_alphaAdaptive (inp : RecInput) (now : ℚ) :
    (getRecommendations inp now).alphaAdaptive = (alphaSelection inp).2 := rfl

/-- C3: a caller-supplied alpha is clamped to `[0, 1]` with
`alpha_adaptive = False`; an absent alpha is adaptively computed: exactly
`0` without a personality profile, else `0.4` plus `0.2` when collaborative
coverage is below `0.05` plus `0.15` when the interaction count is below
`10`, clamped to `[0.1, 0.9]`, with `alpha_adaptive = True`. -/
theorem c3_alpha_selection :
    (∀ (inp : RecInput) (now : ℚ) (a : ℝ), inp.alpha = some a →
      (getRecommendations inp now).alphaUsed = max 0 (min 1 a) ∧
        (getRecommendations inp now).alphaAdaptive = false) ∧
      (∀ (inp : RecInput) (now : ℚ), inp.alpha = none → inp.userProfile = none →
        (getRecommendations inp now).alphaUsed = 0 ∧
          (getRecommendations inp now).alphaAdaptive = true) ∧
      (∀ (inp : RecInput) (now : ℚ) (t : PersonalityType), inp.alpha = none →
        inp.userProfile = some t → inp.allProducts ≠ [] →
        (getRecommendations inp now).alphaUsed =
            max (1/10) (min (9/10)
              (4/10
                + (if ((inp.collaborativeScores.length : ℝ)
                        / (inp.allProducts.length : ℝ)) < 5/100 then 2/10 else 0)
                + (if inp.purchasedProductIds.dedup.length
                      + inp.wishlistIds.dedup.length
                      + inp.viewedIds.dedup.length < 10 then 15/100 else 0))) ∧
          (getRecommendations inp now).alphaAdaptive = true) := by
  refine ⟨?_, ?_, ?_⟩
  · intro inp now a ha
    rw [getRecommendations_alphaUsed, getRecommendations_alphaAdaptive]
    unfold alphaSelection
    rw [ha]
    constructor <;> trivial
  · intro inp now ha hp
    rw [getRecommendations_alphaUsed, getRecommendations_alphaAdaptive]
    unfold alphaSelection
    rw [ha]
    have hps : inp.userProfile.isSome = false := by rw [hp]; rfl
    simp only [hps, calculateAdaptiveAlpha, Bool.not_false, if_true, ite_true]
    constructor <;> trivial
  · intro inp now t ha hp hprod
    rw [getRecommendations_alphaUsed, getRecommendations_alphaAdaptive]
    unfold alphaSelection
    rw [ha]
    have hmax : max inp.allProducts.length 1 = inp.allProducts.length := by
      have : inp.allProducts.length ≠ 0 := by
        simpa [List.length_eq_zero] using hprod
      omega
    have hps : inp.userProfile.isSome = true := by rw [hp]; rfl
    simp only [hps, calculateAdaptiveAlpha, Bool.not_true, Bool.false_eq_true,
      if_false, ite_false, hmax]
    constructor
    · simp only [recommendationAlphaDefault, alphaSparseCollabThreshold,
        alphaSparseCollabBoost, alphaNewUserThreshold, alphaNewUserBoost]
      split_ifs <;> norm_num
    · trivial

/-- Witness for C3: explicit alpha 2 clamps to 1 (non-adaptive); no
profile gives 0 (adaptive); a profile with zero collaborative coverage and
zero interactions gives 0.75 (adaptive). -/
theorem c3_alpha_selection_witness :
    (c3InpA.alpha = some 2 ∧ (getRecommendations c3InpA 0).alphaUsed = 1 ∧
        (getRecommendations c3InpA 0).alphaAdaptive = false) ∧
      (c3InpB.alpha = none ∧ c3InpB.userProfile = none ∧
        (getRecommendations c3InpB 0).alphaUsed = 0 ∧
        (getRecommendations c3InpB 0).alphaAdaptive = true) ∧
      ((getRecommendations c3InpC 0).alphaUsed = 3/4 ∧
        (getRecommendations c3InpC 0).alphaAdaptive = true) := by
  refine ⟨⟨rfl, ?_, ?_⟩, ⟨rfl, rfl, ?_, ?_⟩, ?_, ?_⟩
  · have h := (c3_alpha_selection.1 c3InpA 0 2 rfl).1
    rw [h]
    norm_num
  · exact (c3_alpha_selection.1 c3InpA 0 2 rfl).2
  · exact (c3_alpha_selection.2.1 c3InpB 0 rfl rfl).1
  · exact (c3_alpha_selection.2.1 c3InpB 0 rfl rfl).2
  · have h := (c3_alpha_selection.2.2 c3InpC 0 .practicalShopper rfl rfl
      (by simp [c3InpC])).1
    rw [h]
    norm_num [c3InpC]
  · exact (c3_alpha_selection.2.2 c3InpC 0 .practicalShopper rfl rfl
      (by simp [c3InpC])).2

/-! ## C2: the diversity selector -/

lemma mem_insertCategory_self (l : List ℕ) (c : ℕ) : c ∈ insertCategory l c := by
  unfold insertCategory
  by_cases h : c ∈ l
  · rwa [if_pos h]
  · rw [if_neg h]
    exact List.mem_append_right _ (List.mem_singleton.2 rfl)

lemma mem_insertCategory_of_mem {l : List ℕ} {a : ℕ} (c : ℕ) (h : a ∈ l) :
    a ∈ insertCategory l c := by
  unfold insertCategory
  by_cases hc : c ∈ l
  · rwa [if_pos hc]
  · rw [if_neg hc]
    exact List.mem_append_left _ h

lemma itemCatKey_toItem (e : ℕ × ScoreData) :
    itemCatKey (toRecommendationItem e) = entryCategoryKey e := by
  unfold itemCatKey toRecommendationItem
  by_cases h : entryCategoryKey e ≠ 0
  · simp only [if_pos h, Option.getD_some]
  · push_neg at h
    simp only [h]
    norm_num

/-- The first diversity pass keeps: the per-category output count equals
the counter, counters never exceed the cap, a positive counter means the
category is selected, and every deferred entry has a selected category. -/
lemma firstPass_invariant (limit : ℕ) :
    ∀ (l : List (ℕ × ScoreData)) (st : DiversityState),
      (∀ c, st.recs.countP (fun it => itemCatKey it = c) = st.counts c) →
      (∀ c, st.counts c ≤ diversityMaxPerCategory) →
      (∀ c, 0 < st.counts c → c ∈ st.selected) →
      (∀ e ∈ st.skipped, entryCategoryKey e ∈ st.selected) →
      (∀ c, (firstPass limit l st).recs.countP (fun it => itemCatKey it = c)
          = (firstPass limit l st).counts c) ∧
        (∀ c, (firstPass limit l st).counts c ≤ diversityMaxPerCategory) ∧
        (∀ c, 0 < (firstPass limit l st).counts c →
          c ∈ (firstPass limit l st).selected) ∧
        (∀ e ∈ (firstPass limit l st).skipped,
          entryCategoryKey e ∈ (firstPass limit l st).selected) := by
  intro l
  induction l with
  | nil => intro st h1 h2 h3 h4; exact ⟨h1, h2, h3, h4⟩
  | cons e rest ih =>
    intro st h1 h2 h3 h4
    show _ ∧ _ ∧ _ ∧ _
    rw [firstPass]
    by_cases hlim : limit ≤ st.recs.length
    · rw [if_pos hlim]
      exact ⟨h1, h2, h3, h4⟩
    · rw [if_neg hlim]
      by_cases hcap : diversityMaxPerCategory ≤ st.counts (entryCategoryKey e)
      · rw [if_pos hcap]
        refine ih _ h1 h2 h3 ?_
        intro e' he'
        rcases List.mem_append.mp he' with he' | he'
        · exact h4 e' he'
        · rw [List.mem_singleton.mp he']
          exact h3 _ (lt_of_lt_of_le (by norm_num [diversityMaxPerCategory]) hcap)
      · rw [if_neg hcap]
        refine ih _ ?_ ?_ ?_ ?_
        · intro c
          rw [List.countP_append]
          by_cases hc : c = entryCategoryKey e
          · subst hc
            simp only [List.countP_cons, List.countP_nil, itemCatKey_toItem,
              decide_eq_true_eq]
            rw [h1]
            simp
          · have : itemCatKey (toRecommendationItem e) ≠ c := by
              rw [itemCatKey_toItem]
              exact fun h => hc h.symm
            simp only [List.countP_cons, List.countP_nil, decide_eq_true_eq]
            rw [if_neg this, h1]
            simp [hc]
        · intro c
          by_cases hc : c = entryCategoryKey e
          · subst hc
            simp only [if_pos rfl]
            exact not_le.1 hcap
          · simpa [hc] using h2 c
        · intro c hc
          by_cases hce : c = entryCategoryKey e
          · subst hce
            exact mem_insertCategory_self _ _
          · refine mem_insertCategory_of_mem _ (h3 c ?_)
            simpa [hce] using hc
        · intro e' he'
          exact mem_insertCategory_of_mem _ (h4 e' he')

/-- The second diversity pass adds nothing when every pending entry has an
already-selected category. -/
lemma secondPass_noop (limit : ℕ) :
    ∀ (l : List (ℕ × ScoreData)) (st : DiversityState),
      (∀ e ∈ l, entryCategoryKey e ∈ st.selected) →
      secondPass limit l st = st := by
  intro l
  induction l with
  | nil => intro st _; rfl
  | cons e rest ih =>
    intro st h
    rw [secondPass]
    by_cases hlim : limit ≤ st.recs.length
    · rw [if_pos hlim]
    · rw [if_neg hlim, if_neg (by
        intro hne
        exact hne (h e (List.mem_cons_self e rest)))]
      exact ih st (fun e' he' => h e' (List.mem_cons_of_mem e he'))

/-- The deferred list never contributes: `_apply_diversity` returns
exactly the first-pass output. -/
lemma applyDiversity_eq_firstPass (l : List (ℕ × ScoreData)) (limit : ℕ) :
    applyDiversity l limit = (firstPass limit l ⟨fun _ => 0, [], [], []⟩).recs := by
  unfold applyDiversity
  have hinv := firstPass_invariant limit l ⟨fun _ => 0, [], [], []⟩
    (fun c => rfl) (fun c => by norm_num [diversityMaxPerCategory])
    (fun c hc => absurd hc (lt_irrefl 0)) (fun e he => absurd he (List.not_mem_nil e))
  by_cases h : (firstPass limit l ⟨fun _ => 0, [], [], []⟩).selected.length
      < diversityMinCategories ∧
      (firstPass limit l ⟨fun _ => 0, [], [], []⟩).recs.length < limit
  · rw [if_pos h, secondPass_noop limit _ _ hinv.2.2.2]
  · rw [if_neg h]

/-- C2 (amended): the diversity output never holds more than
`diversity_max_per_category` (3) items of one category, and the second
pass is inert — `_apply_diversity` always equals its first pass alone, so
no minimum-category guarantee is provided (see the counterexample). -/
theorem c2_diversity_amended :
    (∀ (l : List (ℕ × ScoreData)) (limit : ℕ) (c : ℕ),
      (applyDiversity l limit).countP (fun it => itemCatKey it = c)
        ≤ diversityMaxPerCategory) ∧
      ∀ (l : List (ℕ × ScoreData)) (limit : ℕ),
        applyDiversity l limit
          = (firstPass limit l ⟨fun _ => 0, [], [], []⟩).recs := by
  constructor
  · intro l limit c
    rw [applyDiversity_eq_firstPass]
    have hinv := firstPass_invariant limit l ⟨fun _ => 0, [], [], []⟩
      (fun c => rfl) (fun c => by norm_num [diversityMaxPerCategory])
      (fun c hc => absurd hc (lt_irrefl 0))
      (fun e he => absurd he (List.not_mem_nil e))
    rw [hinv.1 c]
    exact hinv.2.1 c
  · exact applyDiversity_eq_firstPass

/-- C2 (counterexample): five candidates spanning 3 categories with limit
3 (which permits 3 categories) produce an output of three category-1 items
only — the claimed minimum-category guarantee fails. -/
theorem c2_min_categories_counterexample :
    (c2Sorted.map entryCategoryKey).dedup.length = 3 ∧
      diversityMinCategories ≤ 3 ∧
      (applyDiversity c2Sorted 3).map itemCatKey = [1, 1, 1] ∧
      ((applyDiversity c2Sorted 3).map itemCatKey).dedup.length = 1 := by
  refine ⟨?_, ?_, ?_, ?_⟩ <;>
    simp [c2Sorted, c2Entry, plainProduct, applyDiversity, firstPass, secondPass,
      entryCategoryKey, itemCatKey, toRecommendationItem, insertCategory,
      diversityMaxPerCategory, diversityMinCategories]

/-! ## C1: purchased and negative-feedback ids never reach the output -/

lemma updateScore_keysP {P : ℕ → Prop} {m : ScoreMap} {pid : ℕ}
    {f : ScoreData → ScoreData} (hm : ∀ e ∈ m, P e.1) (hpid : P pid) :
    ∀ e ∈ updateScore m pid f, P e.1 := by
  intro e he
  unfold updateScore at he
  by_cases h : pid ∈ m.map Prod.fst
  · rw [if_pos h] at he
    obtain ⟨e', he', heq⟩ := List.mem_map.mp he
    by_cases h2 : e'.1 = pid
    · rw [if_pos h2] at heq
      rw [← heq]
      exact h2.symm ▸ hpid
    · rw [if_neg h2] at heq
      rw [← heq]
      exact hm e' he'
  · rw [if_neg h] at he
    rcases List.mem_append.mp he with he | he
    · exact hm e he
    · obtain rfl := List.mem_singleton.mp he
      exact hpid

lemma setAssoc_keysP {α : Type _} {P : ℕ → Prop} {m : List (ℕ × α)} {pid : ℕ}
    {v : α} (hm : ∀ e ∈ m, P e.1) (hpid : P pid) :
    ∀ e ∈ setAssoc m pid v, P e.1 := by
  intro e he
  unfold setAssoc at he
  by_cases h : pid ∈ m.map Prod.fst
  · rw [if_pos h] at he
    obtain ⟨e', he', heq⟩ := List.mem_map.mp he
    by_cases h2 : e'.1 = pid
    · rw [if_pos h2] at heq
      rw [← heq]
      exact h2.symm ▸ hpid
    · rw [if_neg h2] at heq
      rw [← heq]
      exact hm e' he'
  · rw [if_neg h] at he
    rcases List.mem_append.mp he with he | he
    · exact hm e he
    · obtain rfl := List.mem_singleton.mp he
      exact hpid

lemma foldl_keysP {α β : Type _} (P : ℕ → Prop) :
    ∀ (l : List β) (step : List (ℕ × α) → β → List (ℕ × α)),
      (∀ acc b, b ∈ l → (∀ e ∈ acc, P e.1) → ∀ e ∈ step acc b, P e.1) →
      ∀ acc, (∀ e ∈ acc, P e.1) → ∀ e ∈ List.foldl step acc l, P e.1 := by
  intro l
  induction l with
  | nil => intro step _ acc h; simpa using h
  | cons b rest ih =>
    intro step hstep acc h
    rw [List.foldl_cons]
    exact ih step (fun acc' b' hb' => hstep acc' b' (List.mem_cons_of_mem b hb'))
      (step acc b) (hstep acc b (List.mem_cons_self b rest) h)

lemma coldStartScores_keys {popularProducts : List Product}
    {purchasedIds negativeIds : List ℕ} :
    ∀ e ∈ coldStartScores popularProducts purchasedIds negativeIds,
      NotExcluded purchasedIds negativeIds e.1 := by
  unfold coldStartScores
  refine foldl_keysP (NotExcluded purchasedIds negativeIds) _ _ ?_ []
    (fun e he => absurd he (List.not_mem_nil e))
  intro acc b _ hacc e he
  try dsimp only at he
  split at he
  next hc => exact setAssoc_keysP hacc ⟨hc.2.1, hc.2.2⟩ e he
  next => exact hacc e he

lemma collaborativeStage_keys {scores : ScoreMap} {cs : List (ℕ × ℝ)}
    {alphaUsed : ℝ} {purchasedIds negativeIds : List ℕ}
    (hm : ∀ e ∈ scores, NotExcluded purchasedIds negativeIds e.1) :
    ∀ e ∈ collaborativeStage scores cs alphaUsed purchasedIds negativeIds,
      NotExcluded purchasedIds negativeIds e.1 := by
  intro e he
  unfold collaborativeStage at he
  split at he
  · exact hm e he
  · split at he
    · refine foldl_keysP (NotExcluded purchasedIds negativeIds) _ _ ?_ _ hm e he
      intro acc b _ hacc e' he'
      try dsimp only at he'
      split at he'
      next hc => exact updateScore_keysP hacc ⟨hc.2.1, hc.2.2⟩ e' he'
      next => exact hacc e' he'
    · exact hm e he

lemma contentStage_keys {scores : ScoreMap} {contentSimilar : List Product}
    {alphaUsed : ℝ} {purchasedIds negativeIds : List ℕ}
    (hm : ∀ e ∈ scores, NotExcluded purchasedIds negativeIds e.1) :
    ∀ e ∈ contentStage scores contentSimilar alphaUsed purchasedIds negativeIds,
      NotExcluded purchasedIds negativeIds e.1 := by
  intro e he
  unfold contentStage at he
  split at he
  · exact hm e he
  · split at he
    · refine foldl_keysP (NotExcluded purchasedIds negativeIds) _ _ ?_ _ hm e he
      intro acc b _ hacc e' he'
      try dsimp only at he'
      split at he'
      next hc => exact updateScore_keysP hacc ⟨hc.2.1, hc.2.2⟩ e' he'
      next => exact hacc e' he'
    · exact hm e he

lemma personalityStage_keys {scores : ScoreMap}
    {userProfile : Option PersonalityType} {alphaUsed : ℝ}
    {allProducts : List Product} {purchasedIds negativeIds : List ℕ}
    (hm : ∀ e ∈ scores, NotExcluded purchasedIds negativeIds e.1) :
    ∀ e ∈ personalityStage scores userProfile alphaUsed allProducts
        purchasedIds negativeIds,
      NotExcluded purchasedIds negativeIds e.1 := by
  intro e he
  unfold personalityStage at he
  split at he
  · split at he
    · refine foldl_keysP (NotExcluded purchasedIds negativeIds) _ _ ?_ _ hm e he
      intro acc b _ hacc e' he'
      try dsimp only at he'
      split at he'
      next hc => exact updateScore_keysP hacc ⟨hc.1, hc.2⟩ e' he'
      next => exact hacc e' he'
    · exact hm e he
  · exact hm e he

lemma blendStage_keys {scores : ScoreMap} {cs : List (ℕ × ℝ)}
    {contentSimilar : List Product} {alphaUsed : ℝ}
    {purchasedIds negativeIds : List ℕ}
    (hm : ∀ e ∈ scores, NotExcluded purchasedIds negativeIds e.1) :
    ∀ e ∈ blendStage scores cs contentSimilar alphaUsed,
      NotExcluded purchasedIds negativeIds e.1 := by
  intro e he
  unfold blendStage at he
  obtain ⟨e', he', heq⟩ := List.mem_map.mp he
  rw [← heq]
  exact hm e' he'

lemma wishlistStage_keys {scores : ScoreMap} {wishlist : List WishRecord}
    {wishlistIds : List ℕ} {allProducts : List Product}
    {purchasedIds negativeIds : List ℕ} {now : ℚ}
    (hm : ∀ e ∈ scores, NotExcluded purchasedIds negativeIds e.1) :
    ∀ e ∈ wishlistStage scores wishlist wishlistIds allProducts purchasedIds
        negativeIds now,
      NotExcluded purchasedIds negativeIds e.1 := by
  intro e he
  unfold wishlistStage at he
  split at he
  · refine foldl_keysP (NotExcluded purchasedIds negativeIds) _ _ ?_ _ hm e he
    intro acc b _ hacc e' he'
    try dsimp only at he'
    split at he'
    next hc => exact updateScore_keysP hacc ⟨hc.2.1, hc.2.2⟩ e' he'
    next => exact hacc e' he'
  · split at he
    · refine foldl_keysP (NotExcluded purchasedIds negativeIds) _ _ ?_ _ hm e he
      intro acc b _ hacc e' he'
      try dsimp only at he'
      split at he'
      next hc => exact updateScore_keysP hacc ⟨hc.2.2.1, hc.2.2.2⟩ e' he'
      next => exact hacc e' he'
    · exact hm e he

lemma viewedDecayMap_keys {views : List ViewRecord}
    {purchasedIds negativeIds negativeReviewed : List ℕ} {now : ℚ} :
    ∀ e ∈ viewedDecayMap views purchasedIds negativeIds negativeReviewed now,
      NotExcluded purchasedIds negativeIds e.1 := by
  unfold viewedDecayMap
  refine foldl_keysP (NotExcluded purchasedIds negativeIds) _ _ ?_ []
    (fun e he => absurd he (List.not_mem_nil e))
  intro acc b _ hacc e he
  try dsimp only at he
  split at he
  next hc =>
    split at he
    · rcases List.mem_append.mp he with h | h
      · exact hacc e h
      · obtain rfl := List.mem_singleton.mp h
        exact ⟨hc.2.1, hc.2.2.1⟩
    · split at he
      · exact setAssoc_keysP hacc ⟨hc.2.1, hc.2.2.1⟩ e he
      · exact hacc e he
  next => exact hacc e he

lemma viewsStage_keys {scores : ScoreMap} {views : List ViewRecord}
    {viewedIds : List ℕ} {allProducts : List Product}
    {purchasedIds negativeIds negativeReviewed : List ℕ} {now : ℚ}
    (hm : ∀ e ∈ scores, NotExcluded purchasedIds negativeIds e.1) :
    ∀ e ∈ viewsStage scores views viewedIds allProducts purchasedIds
        negativeIds negativeReviewed now,
      NotExcluded purchasedIds negativeIds e.1 := by
  intro e he
  unfold viewsStage at he
  split at he
  · refine foldl_keysP (NotExcluded purchasedIds negativeIds) _ _ ?_ _ hm e he
    intro acc b hb hacc e' he'
    try dsimp only at he'
    exact updateScore_keysP hacc (viewedDecayMap_keys b hb) e' he'
  · split at he
    · refine foldl_keysP (NotExcluded purchasedIds negativeIds) _ _ ?_ _ hm e he
      intro acc b _ hacc e' he'
      try dsimp only at he'
      split at he'
      next hc => exact updateScore_keysP hacc ⟨hc.2.2.1, hc.2.2.2.1⟩ e' he'
      next => exact hacc e' he'
    · exact hm e he

lemma sessionStage_keys {scores : ScoreMap} {sessionIds : List ℕ}
    {sessionProducts allProducts : List Product}
    {purchasedIds negativeIds : List ℕ}
    (hm : ∀ e ∈ scores, NotExcluded purchasedIds negativeIds e.1) :
    ∀ e ∈ sessionStage scores sessionIds sessionProducts allProducts
        purchasedIds negativeIds,
      NotExcluded purchasedIds negativeIds e.1 := by
  intro e he
  unfold sessionStage at he
  split at he
  · refine foldl_keysP (NotExcluded purchasedIds negativeIds) _ _ ?_ _ hm e he
    intro acc b _ hacc e' he'
    try dsimp only at he'
    split at he'
    next hc => exact updateScore_keysP hacc ⟨hc.2.1, hc.2.2.1⟩ e' he'
    next => exact hacc e' he'
  · exact hm e he

lemma categoryBoostStage_keys {scores : ScoreMap}
    {categoryAffinity : List (ℕ × ℝ)} {topCategoryIds : List ℕ}
    {topCategoryId : Option ℕ} {allProducts : List Product}
    {purchasedIds negativeIds : List ℕ}
    (hm : ∀ e ∈ scores, NotExcluded purchasedIds negativeIds e.1) :
    ∀ e ∈ categoryBoostStage scores categoryAffinity topCategoryIds
        topCategoryId allProducts purchasedIds negativeIds,
      NotExcluded purchasedIds negativeIds e.1 := by
  intro e he
  unfold categoryBoostStage at he
  split at he
  · refine foldl_keysP (NotExcluded purchasedIds negativeIds) _ _ ?_ _ hm e he
    intro acc b _ hacc e' he'
    try dsimp only at he'
    split at he'
    next hc =>
      split at he'
      · split at he'
        · exact updateScore_keysP
            (updateScore_keysP hacc ⟨hc.2.1, hc.2.2.1⟩) ⟨hc.2.1, hc.2.2.1⟩ e' he'
        · exact updateScore_keysP hacc ⟨hc.2.1, hc.2.2.1⟩ e' he'
      · exact hacc e' he'
    next => exact hacc e' he'
  · exact hm e he

lemma priceStage_keys {scores : ScoreMap} {pricePreference : Option (ℚ × ℚ)}
    {allProducts : List Product} {purchasedIds negativeIds : List ℕ}
    (hm : ∀ e ∈ scores, NotExcluded purchasedIds negativeIds e.1) :
    ∀ e ∈ priceStage scores pricePreference allProducts purchasedIds negativeIds,
      NotExcluded purchasedIds negativeIds e.1 := by
  intro e he
  unfold priceStage at he
  split at he
  · split at he
    · refine foldl_keysP (NotExcluded purchasedIds negativeIds) _ _ ?_ _ hm e he
      intro acc b _ hacc e' he'
      try dsimp only at he'
      split at he'
      · split at he'
        next hc =>
          split at he'
          · exact updateScore_keysP hacc ⟨hc.2.1, hc.2.2.1⟩ e' he'
          · exact hacc e' he'
        next => exact hacc e' he'
      · exact hacc e' he'
    · exact hm e he
  · exact hm e he

lemma negativePenaltyStage_keys {scores : ScoreMap} {negativeReviewed : List ℕ}
    {purchasedIds negativeIds : List ℕ}
    (hm : ∀ e ∈ scores, NotExcluded purchasedIds negativeIds e.1) :
    ∀ e ∈ negativePenaltyStage scores negativeReviewed,
      NotExcluded purchasedIds negativeIds e.1 := by
  intro e he
  unfold negativePenaltyStage at he
  refine foldl_keysP (NotExcluded purchasedIds negativeIds) _ _ ?_ _ hm e he
  intro acc b _ hacc e' he'
  try dsimp only at he'
  split at he'
  · obtain ⟨e'', he'', heq⟩ := List.mem_map.mp he'
    rw [← heq]
    split
    · exact hacc e'' he''
    · exact hacc e'' he''
  · exact hacc e' he'

lemma mergeProductsStage_keys {scores : ScoreMap} {allProducts : List Product}
    {purchasedIds negativeIds : List ℕ}
    (hm : ∀ e ∈ scores, NotExcluded purchasedIds negativeIds e.1) :
    ∀ e ∈ mergeProductsStage scores allProducts,
      NotExcluded purchasedIds negativeIds e.1 := by
  intro e he
  unfold mergeProductsStage at he
  split at he
  · obtain ⟨e', he', heq⟩ := List.mem_map.mp he
    rw [← heq]
    split
    · exact hm e' he'
    · split
      · exact hm e' he'
      · exact hm e' he'
  · exact hm e he

lemma mem_insertDescBy {α : Type _} (key : α → ℝ) (x : α) :
    ∀ (l : List α) (a : α), a ∈ insertDescBy key x l → a = x ∨ a ∈ l := by
  intro l
  induction l with
  | nil =>
    intro a ha
    exact Or.inl (List.mem_singleton.mp ha)
  | cons y ys ih =>
    intro a ha
    unfold insertDescBy at ha
    split at ha
    · rcases List.mem_cons.mp ha with h | h
      · exact Or.inr (h ▸ List.mem_cons_self y ys)
      · rcases ih a h with h' | h'
        · exact Or.inl h'
        · exact Or.inr (List.mem_cons_of_mem y h')
    · rcases List.mem_cons.mp ha with h | h
      · exact Or.inl h
      · exact Or.inr h

lemma mem_sortDescBy {α : Type _} (key : α → ℝ) :
    ∀ (l : List α) (a : α), a ∈ sortDescBy key l → a ∈ l := by
  intro l
  induction l with
  | nil => intro a ha; exact absurd ha (List.not_mem_nil a)
  | cons y ys ih =>
    intro a ha
    have hrw : sortDescBy key (y :: ys) = insertDescBy key y (sortDescBy key ys) :=
      rfl
    rw [hrw] at ha
    rcases mem_insertDescBy key y _ a ha with h | h
    · exact h ▸ List.mem_cons_self y ys
    · exact List.mem_cons_of_mem y (ih a h)

lemma firstPass_keysP (P : ℕ → Prop) (limit : ℕ) :
    ∀ (l : List (ℕ × ScoreData)) (st : DiversityState),
      (∀ e ∈ l, P e.1) → (∀ it ∈ st.recs, P it.productId) →
      (∀ e ∈ st.skipped, P e.1) →
      (∀ it ∈ (firstPass limit l st).recs, P it.productId) ∧
        ∀ e ∈ (firstPass limit l st).skipped, P e.1 := by
  intro l
  induction l with
  | nil => intro st _ h2 h3; exact ⟨h2, h3⟩
  | cons e rest ih =>
    intro st h1 h2 h3
    rw [firstPass]
    by_cases hlim : limit ≤ st.recs.length
    · rw [if_pos hlim]
      exact ⟨h2, h3⟩
    · rw [if_neg hlim]
      by_cases hcap : diversityMaxPerCategory ≤ st.counts (entryCategoryKey e)
      · rw [if_pos hcap]
        refine ih _ (fun e' he' => h1 e' (List.mem_cons_of_mem e he')) h2 ?_
        intro e' he'
        rcases List.mem_append.mp he' with h | h
        · exact h3 e' h
        · obtain rfl := List.mem_singleton.mp h
          exact h1 e' (List.mem_cons_self e' rest)
      · rw [if_neg hcap]
        refine ih _ (fun e' he' => h1 e' (List.mem_cons_of_mem e he')) ?_ h3
        intro it hit
        rcases List.mem_append.mp hit with h | h
        · exact h2 it h
        · obtain rfl := List.mem_singleton.mp h
          exact h1 e (List.mem_cons_self e rest)

lemma secondPass_keysP (P : ℕ → Prop) (limit : ℕ) :
    ∀ (l : List (ℕ × ScoreData)) (st : DiversityState),
      (∀ e ∈ l, P e.1) → (∀ it ∈ st.recs, P it.productId) →
      ∀ it ∈ (secondPass limit l st).recs, P it.productId := by
  intro l
  induction l with
  | nil => intro st _ h2; exact h2
  | cons e rest ih =>
    intro st h1 h2
    rw [secondPass]
    by_cases hlim : limit ≤ st.recs.length
    · rw [if_pos hlim]
      exact h2
    · rw [if_neg hlim]
      by_cases hsel : entryCategoryKey e ∉ st.selected
      · rw [if_pos hsel]
        refine ih _ (fun e' he' => h1 e' (List.mem_cons_of_mem e he')) ?_
        intro it hit
        rcases List.mem_append.mp hit with h | h
        · exact h2 it h
        · obtain rfl := List.mem_singleton.mp h
          exact h1 e (List.mem_cons_self e rest)
      · rw [if_neg hsel]
        exact ih _ (fun e' he' => h1 e' (List.mem_cons_of_mem e he')) h2

lemma applyDiversity_keysP (P : ℕ → Prop) {l : List (ℕ × ScoreData)} {limit : ℕ}
    (hl : ∀ e ∈ l, P e.1) :
    ∀ it ∈ applyDiversity l limit, P it.productId := by
  unfold applyDiversity
  have hfp := firstPass_keysP P limit l ⟨fun _ => 0, [], [], []⟩ hl
    (by intro it h; cases h) (by intro e h; cases h)
  by_cases h : (firstPass limit l ⟨fun _ => 0, [], [], []⟩).selected.length
      < diversityMinCategories ∧
      (firstPass limit l ⟨fun _ => 0, [], [], []⟩).recs.length < limit
  · rw [if_pos h]
    exact secondPass_keysP P limit _ _ hfp.2 hfp.1
  · rw [if_neg h]
    exact hfp.1

/-- Every entry of the score map after all scoring stages is a
non-excluded product id. -/
lemma recommendationScores_keys (inp : RecInput) (now : ℚ) :
    ∀ e ∈ recommendationScores inp now,
      NotExcluded inp.purchasedProductIds inp.negativeFeedbackIds e.1 := by
  unfold recommendationScores
  split
  · exact coldStartScores_keys
  · exact negativePenaltyStage_keys (priceStage_keys (categoryBoostStage_keys
      (sessionStage_keys (viewsStage_keys (wishlistStage_keys (blendStage_keys
        (personalityStage_keys (contentStage_keys (collaborativeStage_keys
          (fun e he => absurd he (List.not_mem_nil e)))))))))))

/-- C1: no product id from `purchased_product_ids` or
`negative_feedback_ids` ever appears in the recommendation output, under
either strategy and whatever the other signals are. -/
theorem c1_excluded_ids_never_output (inp : RecInput) (now : ℚ) :
    ∀ it ∈ (getRecommendations inp now).recommendations,
      it.productId ∉ inp.purchasedProductIds ∧
        it.productId ∉ inp.negativeFeedbackIds := by
  have hrecs : (getRecommendations inp now).recommendations
      = applyDiversity (sortByScoreDesc (mergeProductsStage
          (recommendationScores inp now) inp.allProducts)) inp.limit := rfl
  rw [hrecs]
  apply applyDiversity_keysP
    (NotExcluded inp.purchasedProductIds inp.negativeFeedbackIds)
  intro e he
  exact mergeProductsStage_keys (recommendationScores_keys inp now) e
    (mem_sortDescBy _ _ e he)

/-- The output on `c1Inp`: exactly the wishlist-boosted product 1. -/
lemma recommendations_c1Inp :
    (getRecommendations c1Inp 0).recommendations = [c1Item] := rfl

/-- Witness for C1 at `c1Inp`: the produced item is in the output and its
id avoids both exclusion lists. -/
theorem c1_excluded_ids_never_output_witness :
    c1Item ∈ (getRecommendations c1Inp 0).recommendations ∧
      c1Item.productId ∉ c1Inp.purchasedProductIds ∧
        c1Item.productId ∉ c1Inp.negativeFeedbackIds :=
  ⟨recommendations_c1Inp ▸ List.mem_singleton.mpr rfl,
   c1_excluded_ids_never_output c1Inp 0 c1Item
     (recommendations_c1Inp ▸ List.mem_singleton.mpr rfl)⟩

/-! ## C6: wall-clock dependence of scoring -/

lemma categoryAffinityOf_c6 (now : ℚ) : categoryAffinityOf c6Inp now = [] := by
  unfold categoryAffinityOf
  rw [if_pos (by simp [c6Inp])]
  unfold calculateCategoryAffinity
  simp [c6Inp, calculateFilterBasedCategoryAffinity, extractCategorySignals,
    extractFilterInteractions]

lemma topCategoriesOf_c6 (now : ℚ) : topCategoriesOf c6Inp now = [] := by
  unfold topCategoriesOf
  rw [categoryAffinityOf_c6]
  rfl

/-- The score map `c6Inp` produces: the wishlist record boost with the
time decay at the given clock reading. -/
lemma scoreMap_c6 (now : ℚ) :
    recommendationScores c6Inp now
      = [(1, ⟨0 + 4/10 * calculateTimeDecay
            ((getDaysAgo now (some 0) : ℚ) : ℝ) decayHalfLifeWishlist,
          0, 0, ["From your wishlist"], none, some "wishlist"⟩)] := by
  simp only [recommendationScores, categoryAffinityOf_c6, topCategoriesOf_c6]
  rfl

/-- On `c6Inp` the single output score is the clamped wishlist boost
`0.4 · decay(days(now), 14)`. -/
lemma recommendationScore_c6 (now : ℚ) :
    (getRecommendations c6Inp now).recommendations.map RecommendationItem.score
      = [min (max (0 + 4/10 * calculateTimeDecay
          ((getDaysAgo now (some 0) : ℚ) : ℝ) decayHalfLifeWishlist) 0) 1] := by
  have hrecs : (getRecommendations c6Inp now).recommendations
      = applyDiversity (sortByScoreDesc (mergeProductsStage
          (recommendationScores c6Inp now) c6Inp.allProducts)) c6Inp.limit := rfl
  rw [hrecs, scoreMap_c6]
  rfl

lemma decay_c6_at0 :
    calculateTimeDecay ((getDaysAgo 0 (some 0) : ℚ) : ℝ) decayHalfLifeWishlist
      = 1 := by
  have h : (getDaysAgo 0 (some 0) : ℚ) = 0 := by norm_num [getDaysAgo]
  rw [h]
  unfold calculateTimeDecay decayHalfLifeWishlist
  rw [Rat.cast_zero, if_neg (lt_irrefl (0 : ℝ)), zero_div, Real.rpow_zero]

lemma decay_c6_at14 :
    calculateTimeDecay ((getDaysAgo 14 (some 0) : ℚ) : ℝ) decayHalfLifeWishlist
      = 1/2 := by
  have h : (getDaysAgo 14 (some 0) : ℚ) = 14 := by norm_num [getDaysAgo]
  rw [h]
  have h14 : ((14 : ℚ) : ℝ) = 14 := by norm_num
  rw [h14]
  unfold calculateTimeDecay decayHalfLifeWishlist
  rw [if_neg (by norm_num : ¬(14 : ℝ) < 0),
    div_self (by norm_num : (14 : ℝ) ≠ 0), Real.rpow_one]

/-- C6 (counterexample): identical inputs at two different wall-clock
readings produce different scored outputs — the score depends on the
hidden current time through the time decay of the wishlist record added
on day 0 (`0.4` at day 0, `0.2` fourteen days later). -/
theorem c6_wall_clock_counterexample :
    (getRecommendations c6Inp 0).recommendations.map RecommendationItem.score
        = [2/5] ∧
      (getRecommendations c6Inp 14).recommendations.map RecommendationItem.score
        = [1/5] ∧
      getRecommendations c6Inp 0 ≠ getRecommendations c6Inp 14 := by
  have h0 : (getRecommendations c6Inp 0).recommendations.map
      RecommendationItem.score = [2/5] := by
    rw [recommendationScore_c6, decay_c6_at0]
    norm_num
  have h14 : (getRecommendations c6Inp 14).recommendations.map
      RecommendationItem.score = [1/5] := by
    rw [recommendationScore_c6, decay_c6_at14]
    norm_num
  refine ⟨h0, h14, ?_⟩
  intro heq
  have := congrArg (fun r => r.recommendations.map RecommendationItem.score) heq
  simp only at this
  rw [h0, h14] at this
  simp only [List.cons.injEq, and_true] at this
  norm_num at this

/-- With no wishlist records the wishlist stage never reads the clock:
any reading gives the same result as reading `0`. -/
lemma wishlistStage_nil (s : ScoreMap) (wIds : List ℕ) (aps : List Product)
    (p n : List ℕ) (m : ℚ) :
    wishlistStage s [] wIds aps p n m = wishlistStage s [] wIds aps p n 0 := by
  unfold wishlistStage
  rw [if_neg (by decide : ¬¬(List.isEmpty ([] : List WishRecord) = true)),
    if_neg (by decide : ¬¬(List.isEmpty ([] : List WishRecord) = true))]

/-- With no view records the views stage never reads the clock. -/
lemma viewsStage_nil (s : ScoreMap) (vIds : List ℕ) (aps : List Product)
    (p n nr : List ℕ) (m : ℚ) :
    viewsStage s [] vIds aps p n nr m = viewsStage s [] vIds aps p n nr 0 := by
  unfold viewsStage
  rw [if_neg (by decide : ¬¬(List.isEmpty ([] : List ViewRecord) = true)),
    if_neg (by decide : ¬¬(List.isEmpty ([] : List ViewRecord) = true))]

/-- C6 (amended): scoring is a deterministic pure function of the explicit
inputs together with the current wall-clock reading; the clock enters only
through the time decay of timestamped purchase/wishlist/view records, so
with no such records supplied the output is clock-independent. -/
theorem c6_deterministic_given_clock (inp : RecInput) (now₁ now₂ : ℚ)
    (hp : inp.purchases = []) (hw : inp.wishlist = []) (hv : inp.views = []) :
    getRecommendations inp now₁ = getRecommendations inp now₂ := by
  have haff : ∀ now, categoryAffinityOf inp now = [] := by
    intro now
    unfold categoryAffinityOf
    rw [hp, hw, hv]
    simp
  have htop : ∀ now, topCategoriesOf inp now = [] := by
    intro now
    unfold topCategoriesOf
    rw [haff]
    rfl
  have hscores : recommendationScores inp now₁ = recommendationScores inp now₂ := by
    simp only [recommendationScores, haff, htop, hw, hv]
    rw [wishlistStage_nil _ _ _ _ _ now₁, wishlistStage_nil _ _ _ _ _ now₂,
      viewsStage_nil _ _ _ _ _ _ now₁, viewsStage_nil _ _ _ _ _ _ now₂]
  unfold getRecommendations
  rw [hscores]

/-- Witness for C6 (amended) at the empty input and clock readings 0 and
100. -/
theorem c6_deterministic_given_clock_witness :
    emptyRecInput.purchases = [] ∧ emptyRecInput.wishlist = [] ∧
      emptyRecInput.views = [] ∧
      getRecommendations emptyRecInput 0 = getRecommendations emptyRecInput 100 :=
  ⟨rfl, rfl, rfl, c6_deterministic_given_clock emptyRecInput 0 100 rfl rfl rfl⟩

/-! ## C5: cold-start popularity ranking -/

/-- Every index produced by `enumFrom n` is at least `n`. -/
lemma le_fst_of_mem_enumFrom {α : Type _} :
    ∀ (n : ℕ) (l : List α) (x : ℕ × α), x ∈ l.enumFrom n → n ≤ x.1
  | _, [], x, h => absurd h (List.not_mem_nil x)
  | n, a :: as, x, h => by
    rw [List.enumFrom_cons] at h
    rcases List.mem_cons.mp h with h1 | h2
    · subst h1; exact Nat.le_refl n
    · exact Nat.le_of_succ_le (le_fst_of_mem_enumFrom (n + 1) as x h2)

/-- Every index produced by `enumFrom n` is below `n` plus the length. -/
lemma fst_lt_of_mem_enumFrom {α : Type _} :
    ∀ (n : ℕ) (l : List α) (x : ℕ × α), x ∈ l.enumFrom n → x.1 < n + l.length
  | _, [], x, h => absurd h (List.not_mem_nil x)
  | n, a :: as, x, h => by
    rw [List.enumFrom_cons] at h
    rcases List.mem_cons.mp h with h1 | h2
    · subst h1; simp
    · have := fst_lt_of_mem_enumFrom (n + 1) as x h2
      simp only [List.length_cons]
      omega

/-- The value component of an `enumFrom` member belongs to the list. -/
lemma snd_mem_of_mem_enumFrom {α : Type _} :
    ∀ (n : ℕ) (l : List α) (x : ℕ × α), x ∈ l.enumFrom n → x.2 ∈ l
  | _, [], x, h => absurd h (List.not_mem_nil x)
  | n, a :: as, x, h => by
    rw [List.enumFrom_cons] at h
    rcases List.mem_cons.mp h with h1 | h2
    · subst h1; exact List.mem_cons_self a as
    · exact List.mem_cons_of_mem a (snd_mem_of_mem_enumFrom (n + 1) as x h2)

/-- The indices of `enumFrom` are strictly increasing. -/
lemma pairwise_fst_lt_enumFrom {α : Type _} :
    ∀ (n : ℕ) (l : List α), (l.enumFrom n).Pairwise (fun a b => a.1 < b.1)
  | _, [] => List.Pairwise.nil
  | n, a :: as => by
    rw [List.enumFrom_cons]
    exact List.Pairwise.cons
      (fun b hb => Nat.lt_of_lt_of_le (Nat.lt_succ_self n)
        (le_fst_of_mem_enumFrom (n + 1) as b hb))
      (pairwise_fst_lt_enumFrom (n + 1) as)

/-- Counting over an enumeration by a value-only predicate counts the
underlying list. -/
lemma countP_enumFrom_snd {α : Type _} (q : α → Bool) :
    ∀ (n : ℕ) (l : List α),
      (l.enumFrom n).countP (fun ip => q ip.2) = l.countP q
  | _, [] => rfl
  | n, a :: as => by
    rw [List.enumFrom_cons, List.countP_cons, List.countP_cons,
      countP_enumFrom_snd q (n + 1) as]

/-- The cold-start fold appends one `popEntry` per enumerated product when
every product id is truthy, non-excluded and fresh. -/
lemma coldStartScores_fold (pu ne : List ℕ) :
    ∀ (l : List (ℕ × Product)) (acc : ScoreMap),
      (∀ ip ∈ l, ip.2.id ≠ 0 ∧ ip.2.id ∉ pu ∧ ip.2.id ∉ ne ∧
        ip.2.id ∉ acc.map Prod.fst) →
      (l.map (fun ip => ip.2.id)).Nodup →
      l.foldl (fun scores ip =>
        let i := ip.1
        let product := ip.2
        if product.id ≠ 0 ∧ product.id ∉ pu ∧ product.id ∉ ne then
          setAssoc scores product.id
            ⟨1 - (i : ℝ) * (5/100), 1 - (i : ℝ) * (5/100), 0, ["Bestseller"],
             some product, some "popular"⟩
        else scores) acc = acc ++ l.map popEntry := by
  intro l
  induction l with
  | nil => intro acc _ _; simp
  | cons ip rest ih =>
    intro acc h hnd
    obtain ⟨h1, h2, h3, h4⟩ := h ip (List.mem_cons_self ip rest)
    simp only [List.map_cons, List.nodup_cons] at hnd
    obtain ⟨hnotin, hnd⟩ := hnd
    rw [List.foldl_cons]
    have hstep : (let i := ip.1
        let product := ip.2
        if product.id ≠ 0 ∧ product.id ∉ pu ∧ product.id ∉ ne then
          setAssoc acc product.id
            ⟨1 - (i : ℝ) * (5/100), 1 - (i : ℝ) * (5/100), 0, ["Bestseller"],
             some product, some "popular"⟩
        else acc) = acc ++ [popEntry ip] := by
      show (if ip.2.id ≠ 0 ∧ ip.2.id ∉ pu ∧ ip.2.id ∉ ne then
          setAssoc acc ip.2.id
            ⟨1 - (ip.1 : ℝ) * (5/100), 1 - (ip.1 : ℝ) * (5/100), 0, ["Bestseller"],
             some ip.2, some "popular"⟩
        else acc) = acc ++ [popEntry ip]
      rw [if_pos ⟨h1, h2, h3⟩]
      unfold setAssoc
      rw [if_neg h4]
      rfl
    rw [hstep]
    have hrest := ih (acc ++ [popEntry ip]) ?_ hnd
    · rw [hrest]
      simp [List.append_assoc]
    · intro jp hjp
      obtain ⟨g1, g2, g3, g4⟩ := h jp (List.mem_cons_of_mem ip hjp)
      refine ⟨g1, g2, g3, ?_⟩
      simp only [List.map_append]
      intro hmem
      rcases List.mem_append.mp hmem with hm | hm
      · exact g4 hm
      · have heq : jp.2.id = ip.2.id := by
          simpa [popEntry] using hm
        have hh : jp.2.id ∈ rest.map (fun x => x.2.id) :=
          List.mem_map_of_mem _ hjp
        rw [heq] at hh
        exact hnotin hh

/-- `coldStartScores` with no purchased ids and an untouched popular list
is exactly the enumerated `popEntry` map. -/
lemma coldStartScores_eq (pops : List Product) (ne : List ℕ)
    (hids : ∀ p ∈ pops, p.id ≠ 0) (hneg : ∀ p ∈ pops, p.id ∉ ne)
    (hnodup : (pops.map Product.id).Nodup) :
    coldStartScores pops [] ne = pops.enum.map popEntry := by
  have hmap : pops.enum.map (fun ip => ip.2.id) = pops.map Product.id := by
    conv_rhs => rw [← List.enum_map_snd pops]
    rw [List.map_map]
    exact List.map_congr_left (fun a _ => rfl)
  have hA : ∀ ip ∈ pops.enum, ip.2.id ≠ 0 ∧ ip.2.id ∉ ([] : List ℕ) ∧
      ip.2.id ∉ ne ∧ ip.2.id ∉ ([] : ScoreMap).map Prod.fst := by
    intro ip hip
    have hsnd : ip.2 ∈ pops := snd_mem_of_mem_enumFrom 0 pops ip hip
    exact ⟨hids ip.2 hsnd, by simp, hneg ip.2 hsnd, by simp⟩
  have hB : (pops.enum.map (fun ip => ip.2.id)).Nodup := by
    rw [hmap]; exact hnodup
  unfold coldStartScores
  exact (coldStartScores_fold [] ne pops.enum [] hA hB).trans
    (List.nil_append _)

/-- The product-merge stage is the identity when every entry already
carries its product. -/
lemma mergeProductsStage_of_some (aps : List Product) :
    ∀ (s : ScoreMap), (∀ e ∈ s, (Prod.snd e).product.isSome = true) →
      mergeProductsStage s aps = s
  | [], _ => by
    unfold mergeProductsStage
    by_cases ha : ¬aps.isEmpty = true
    · rw [if_pos ha]; rfl
    · rw [if_neg ha]
  | e :: es, h => by
    have hes := mergeProductsStage_of_some aps es
      (fun x hx => h x (List.mem_cons_of_mem e hx))
    obtain ⟨p, hp⟩ := Option.isSome_iff_exists.mp (h e (List.mem_cons_self e es))
    unfold mergeProductsStage at hes ⊢
    by_cases ha : ¬aps.isEmpty = true
    · rw [if_pos ha] at hes ⊢
      rw [List.map_cons, hes]
      congr 1
      simp [hp]
    · rw [if_neg ha]

/-- The stable descending sort leaves a strictly score-descending list
unchanged. -/
lemma sortDescBy_of_strictDesc {α : Type _} (key : α → ℝ) :
    ∀ l : List α, l.Pairwise (fun a b => key b < key a) → sortDescBy key l = l
  | [], _ => rfl
  | x :: xs, h => by
    obtain ⟨hx, hxs⟩ := List.pairwise_cons.mp h
    have hrec := sortDescBy_of_strictDesc key xs hxs
    unfold sortDescBy at hrec ⊢
    rw [List.foldr_cons, hrec]
    cases xs with
    | nil => rfl
    | cons y ys =>
      unfold insertDescBy
      rw [if_neg (not_lt.mpr (le_of_lt (hx y (List.mem_cons_self y ys))))]

/-- The first diversity pass accepts every candidate when the limit and
the per-category cap are never hit. -/
lemma firstPass_accepts_all (limit : ℕ) :
    ∀ (l : List (ℕ × ScoreData)) (st : DiversityState),
      st.recs.length + l.length ≤ limit →
      (∀ c, st.counts c + l.countP (fun x => entryCategoryKey x = c)
        ≤ diversityMaxPerCategory) →
      (firstPass limit l st).recs = st.recs ++ l.map toRecommendationItem := by
  intro l
  induction l with
  | nil => intro st _ _; simp [firstPass]
  | cons e rest ih =>
    intro st hlen hcnt
    rw [firstPass]
    have hlt : st.recs.length < limit := by
      simp only [List.length_cons] at hlen; omega
    rw [if_neg (not_le.mpr hlt)]
    have hppos : (e :: rest).countP
        (fun x => entryCategoryKey x = entryCategoryKey e)
        = rest.countP (fun x => entryCategoryKey x = entryCategoryKey e) + 1 :=
      List.countP_cons_of_pos _ _ (by simp)
    have hce : st.counts (entryCategoryKey e) < diversityMaxPerCategory := by
      have hc := hcnt (entryCategoryKey e)
      rw [hppos] at hc
      omega
    rw [if_neg (not_le.mpr hce)]
    have h1 : (st.recs ++ [toRecommendationItem e]).length + rest.length
        ≤ limit := by
      simp only [List.length_append, List.length_singleton,
        List.length_cons, List.length_nil] at hlen ⊢
      omega
    have h2 : ∀ c, (if c = entryCategoryKey e
          then st.counts (entryCategoryKey e) + 1 else st.counts c)
        + rest.countP (fun x => entryCategoryKey x = c)
        ≤ diversityMaxPerCategory := by
      intro c
      by_cases hc : c = entryCategoryKey e
      · subst hc
        rw [if_pos rfl]
        have hcc := hcnt (entryCategoryKey e)
        rw [hppos] at hcc
        omega
      · rw [if_neg hc]
        have hcc := hcnt c
        have hcneg : (e :: rest).countP (fun x => entryCategoryKey x = c)
            = rest.countP (fun x => entryCategoryKey x = c) :=
          List.countP_cons_of_neg _ _ (by
            simp only [decide_eq_true_eq]
            exact fun hh => hc hh.symm)
        rw [hcneg] at hcc
        exact hcc
    have hrec := ih ⟨fun c => if c = entryCategoryKey e
          then st.counts (entryCategoryKey e) + 1 else st.counts c,
        st.recs ++ [toRecommendationItem e],
        insertCategory st.selected (entryCategoryKey e), st.skipped⟩ h1 h2
    refine hrec.trans ?_
    rw [List.map_cons]
    simp [List.append_assoc]

/-- `_apply_diversity` passes everything through when the limit covers the
list and no category exceeds the cap. -/
lemma applyDiversity_accepts_all (l : List (ℕ × ScoreData)) (limit : ℕ)
    (hlen : l.length ≤ limit)
    (hcnt : ∀ c, l.countP (fun x => entryCategoryKey x = c)
      ≤ diversityMaxPerCategory) :
    applyDiversity l limit = l.map toRecommendationItem := by
  rw [applyDiversity_eq_firstPass]
  have h := firstPass_accepts_all limit l ⟨fun _ => 0, [], [], []⟩
    (by simpa using hlen) (fun c => by simpa using hcnt c)
  simpa using h

/-- C5: with an empty collaborative score map, an empty content list and no
purchased, wishlist or viewed products, `get_recommendations` takes the
cold-start branch: the strategy is "popular" and (for truthy, non-excluded,
duplicate-free candidates whose count fits the limit, the 21-rank score
floor and the per-category diversity cap) the output lists the popular
candidates in input order, the candidate of 0-based popularity rank `i`
scoring `1 − 0.05·i`. -/
theorem c5_cold_start_popularity (inp : RecInput) (now : ℚ)
    (hcs : inp.collaborativeScores = []) (hct : inp.contentSimilar = [])
    (hpu : inp.purchasedProductIds = []) (hwi : inp.wishlistIds = [])
    (hvw : inp.viewedIds = [])
    (hids : ∀ p ∈ inp.popularProducts, p.id ≠ 0)
    (hneg : ∀ p ∈ inp.popularProducts, p.id ∉ inp.negativeFeedbackIds)
    (hnodup : (inp.popularProducts.map Product.id).Nodup)
    (hlim : inp.popularProducts.length ≤ inp.limit)
    (hlen21 : inp.popularProducts.length ≤ 21)
    (hcat : ∀ c, inp.popularProducts.countP (fun q => q.categoryId = c)
      ≤ diversityMaxPerCategory) :
    (getRecommendations inp now).strategy = "popular" ∧
      (getRecommendations inp now).recommendations.map
        RecommendationItem.productId = inp.popularProducts.map Product.id ∧
      (getRecommendations inp now).recommendations.map
        RecommendationItem.score
        = (List.range inp.popularProducts.length).map
            (fun i : ℕ => (1 : ℝ) - (i : ℝ) * (5/100)) := by
  have hcold : coldStart inp = true := by
    unfold coldStart
    rw [hcs, hct, hpu, hwi, hvw]
    rfl
  have hes : recommendationScores inp now
      = inp.popularProducts.enum.map popEntry := by
    simp only [recommendationScores]
    rw [if_pos hcold, hpu]
    exact coldStartScores_eq inp.popularProducts inp.negativeFeedbackIds
      hids hneg hnodup
  have hsome : ∀ e ∈ inp.popularProducts.enum.map popEntry,
      (Prod.snd e).product.isSome = true := by
    intro e he
    obtain ⟨ip, _, rfl⟩ := List.mem_map.mp he
    rfl
  have hmerge : mergeProductsStage (inp.popularProducts.enum.map popEntry)
      inp.allProducts = inp.popularProducts.enum.map popEntry :=
    mergeProductsStage_of_some inp.allProducts _ hsome
  have hsorted : sortByScoreDesc (inp.popularProducts.enum.map popEntry)
      = inp.popularProducts.enum.map popEntry := by
    unfold sortByScoreDesc
    refine sortDescBy_of_strictDesc _ _ ?_
    refine List.pairwise_map.mpr ?_
    refine List.Pairwise.imp (fun hab => ?_)
      (pairwise_fst_lt_enumFrom 0 inp.popularProducts)
    show 1 - (_ : ℝ) * (5/100) < 1 - (_ : ℝ) * (5/100)
    have hcast := (Nat.cast_lt (α := ℝ)).mpr hab
    have hmul := mul_lt_mul_of_pos_right hcast
      (by norm_num : (0 : ℝ) < 5/100)
    linarith
  have hlen2 : (inp.popularProducts.enum.map popEntry).length ≤ inp.limit := by
    rw [List.length_map, List.enum_length]
    exact hlim
  have hcnt2 : ∀ c, (inp.popularProducts.enum.map popEntry).countP
      (fun x => entryCategoryKey x = c) ≤ diversityMaxPerCategory := by
    intro c
    have h1 : (inp.popularProducts.enum.map popEntry).countP
        (fun x => entryCategoryKey x = c)
        = inp.popularProducts.countP (fun q => q.categoryId = c) := by
      rw [List.countP_map]
      exact countP_enumFrom_snd (fun q => decide (q.categoryId = c)) 0
        inp.popularProducts
    rw [h1]
    exact hcat c
  have hdiv : applyDiversity (inp.popularProducts.enum.map popEntry) inp.limit
      = (inp.popularProducts.enum.map popEntry).map toRecommendationItem :=
    applyDiversity_accepts_all _ _ hlen2 hcnt2
  have hid : inp.popularProducts.enum.map (fun ip => ip.2.id)
      = inp.popularProducts.map Product.id := by
    conv_rhs => rw [← List.enum_map_snd inp.popularProducts]
    rw [List.map_map]
    exact List.map_congr_left (fun a _ => rfl)
  have hrec : getRecommendations inp now
      = ⟨(inp.popularProducts.enum.map popEntry).map toRecommendationItem,
         "popular", (alphaSelection inp).1, (alphaSelection inp).2⟩ := by
    simp only [getRecommendations]
    rw [hes, hmerge, hsorted, hdiv, if_pos hcold]
  refine ⟨?_, ?_, ?_⟩
  · rw [hrec]
  · rw [hrec]
    show ((inp.popularProducts.enum.map popEntry).map
        toRecommendationItem).map RecommendationItem.productId
        = inp.popularProducts.map Product.id
    rw [List.map_map, List.map_map]
    exact hid
  · rw [hrec]
    show ((inp.popularProducts.enum.map popEntry).map
        toRecommendationItem).map RecommendationItem.score
        = (List.range inp.popularProducts.length).map
            (fun i : ℕ => (1 : ℝ) - (i : ℝ) * (5/100))
    rw [List.map_map, List.map_map]
    have hclamp : ∀ ip ∈ inp.popularProducts.enum,
        ((RecommendationItem.score ∘ toRecommendationItem) ∘ popEntry) ip
          = 1 - (ip.1 : ℝ) * (5/100) := by
      intro ip hip
      have hlt : ip.1 < inp.popularProducts.length := by
        have := fst_lt_of_mem_enumFrom 0 inp.popularProducts ip hip
        simpa using this
      have hle : (ip.1 : ℝ) ≤ 20 := by
        have h20 : ip.1 ≤ 20 := by omega
        exact_mod_cast h20

      have hx0 : (0 : ℝ) ≤ (ip.1 : ℝ) * (5/100) := by positivity
      have h0 : (0 : ℝ) ≤ 1 - (ip.1 : ℝ) * (5/100) := by linarith
      have h1 : 1 - (ip.1 : ℝ) * (5/100) ≤ 1 := by linarith
      show min (max (1 - (ip.1 : ℝ) * (5/100)) 0) 1
          = 1 - (ip.1 : ℝ) * (5/100)
      rw [max_eq_left h0, min_eq_left h1]
    have hmapcong : inp.popularProducts.enum.map
        ((RecommendationItem.score ∘ toRecommendationItem) ∘ popEntry)
        = inp.popularProducts.enum.map (fun ip => 1 - (ip.1 : ℝ) * (5/100)) :=
      List.map_congr_left hclamp
    rw [hmapcong]
    conv_rhs => rw [← List.enum_map_fst inp.popularProducts]
    rw [List.map_map]
    exact List.map_congr_left (fun a _ => rfl)

/-- C5 witness: three popular products in distinct categories for a
history-free user come back in input order with scores 1, 0.95, 0.9. -/
theorem c5_cold_start_popularity_witness :
    (getRecommendations c5Inp 0).strategy = "popular" ∧
      (getRecommendations c5Inp 0).recommendations.map
        RecommendationItem.productId = [1, 2, 3] ∧
      (getRecommendations c5Inp 0).recommendations.map
        RecommendationItem.score = [1, 19/20, 9/10] := by
  obtain ⟨h1, h2, h3⟩ := c5_cold_start_popularity c5Inp 0 rfl rfl rfl rfl rfl
    (by decide) (by decide) (by decide) (by decide) (by decide)
    (fun c => le_trans (List.countP_le_length _) (by decide))
  refine ⟨h1, ?_, ?_⟩
  · rw [h2]; rfl
  · rw [h3]
    norm_num [show c5Inp.popularProducts.length = 3 from rfl, List.range_succ]

end ECommerce
